import Mathlib

/-!
Verification development for the "Digital Concert Hall" scraper
(`scraper.py`).  The scraper walks HTML pages and a JSON stream-lookup
endpoint and produces hierarchical concert/film records.

The development shallowly embeds the extraction and orchestration logic:

* HTML fragments are modelled by the `Node` tree (a bs4 `Tag` is
  `Node.elem`, a `NavigableString` is `Node.text`); the CSS-selector
  step that locates each fragment is abstracted away - the located
  fragments are fields of the `ConcertPage` / `FilmPage` input
  structures, exactly one field per selector used by the source.
* JSON payloads are modelled by `Json`; HTTP responses by `FetchResult`.
* `sys.exit(-1)` after a `log.error` is modelled by `RunErr.exited`;
  an uncaught Python exception (`KeyError`, `TypeError`, ...) by
  `RunErr.crashed`.  Both terminate the process with a nonzero status.
* The network is modelled by environments (`SeasonsEnv`, `FilmsEnv`)
  mapping identifiers to responses; issued requests are recorded as
  `Event`s so that "no fetch happens for a skipped item" is provable.
-/

namespace Philly

/-!
String primitives.  The Lean core versions (`String.trim`,
`String.split`, `String.replace`, ...) are substring-based and defined
by well-founded recursion, which the kernel cannot evaluate; the
following structurally-recursive versions over `List Char` compute the
same Python operations and evaluate by `rfl`/`decide`.  (Lean's
`Char.isWhitespace` covers space/tab/CR/LF, the whitespace that occurs
in HTML text; Python's `str.split`/`str.strip` whitespace set is a
superset.)
-/

/-- Python `str.strip()`: drop whitespace from both ends. -/
def pyStrip (s : String) : String :=
  (((s.toList.dropWhile Char.isWhitespace).reverse.dropWhile
      Char.isWhitespace).reverse).asString

/-- Helper for `pySplit`; `acc` is the current word, reversed. -/
def pySplitAux : List Char → List Char → List String
  | [], acc => if acc.isEmpty then [] else [acc.reverse.asString]
  | c :: cs, acc =>
    if c.isWhitespace then
      if acc.isEmpty then pySplitAux cs []
      else acc.reverse.asString :: pySplitAux cs []
    else pySplitAux cs (c :: acc)

/-- Python `str.split()` with no argument: split on whitespace runs,
dropping empty pieces. -/
def pySplit (s : String) : List String :=
  pySplitAux s.toList []

/-- Python `str.replace(pat, repl)` for a one-character pattern and a
one-character replacement (the only form the source uses:
`.replace('’', "'")` and `.replace('–', '-')`): replace every
occurrence. -/
def pyReplace (pat repl : Char) (s : String) : String :=
  (s.toList.map (fun c => if c = pat then repl else c)).asString

/-- Python slicing `s[n:]`. -/
def pyDrop (n : Nat) (s : String) : String :=
  (s.toList.drop n).asString

/-- Helper for `pySplitOnChar`; `acc` is the current piece, reversed. -/
def pySplitOnCharAux (sep : Char) : List Char → List Char → List String
  | [], acc => [acc.reverse.asString]
  | c :: cs, acc =>
    if c = sep then acc.reverse.asString :: pySplitOnCharAux sep cs []
    else pySplitOnCharAux sep cs (c :: acc)

/-- Python `str.split(sep)` for a one-character separator (empty pieces
kept, as Python does with an explicit separator). -/
def pySplitOnChar (sep : Char) (s : String) : List String :=
  pySplitOnCharAux sep s.toList []

/-- Document node: a bs4 `PageElement`.  `text` is a `NavigableString`,
`elem name children` is a `Tag` with that tag name.  (Comments/doctypes
do not occur in the fragments the scraper touches.) -/
inductive Node where
  | text (s : String)
  | elem (tag : String) (children : List Node)

/-- Tag name of a node: `Tag.name` for tags, `None` for strings
(mirrors how `tag.name == 'strong'` is only true for tags). -/
def Node.name : Node → Option String
  | .text _ => none
  | .elem t _ => some t

mutual
/-- The `.text` property of bs4: concatenation of all descendant
strings, no separator. -/
def nodeText : Node → String
  | .text s => s
  | .elem _ cs => nodesText cs

/-- Text of a list of nodes, concatenated. -/
def nodesText : List Node → String
  | [] => ""
  | n :: ns => nodeText n ++ nodesText ns
end

/-- Source `__extract_text` (scraper.py:103-111): `' '.join(x.text.split())`
for tags, `' '.join(x.split())` for bare strings - both normalize the
node's text by collapsing whitespace runs to single spaces and trimming
the ends. -/
def extract_text (n : Node) : String :=
  " ".intercalate (pySplit (nodeText n))

/-- One parsed (player, role) group, source `__make_dict`'s return value:
a dict with keys `role` and `player`, both defaulting to sentinels. -/
structure RolePlayer where
  role : String
  player : String
deriving DecidableEq

/-- One iteration of the `__make_dict` loop (scraper.py:120-124):
`if tag.name == 'strong'` sets `player`, `elif tag.name == 'em'` sets
`role`; anything else is ignored. -/
def mdStep (acc : RolePlayer) (n : Node) : RolePlayer :=
  if n.name = some "strong" then { acc with player := pyStrip (nodeText n) }
  else if n.name = some "em" then { acc with role := pyStrip (nodeText n) }
  else acc

/-- Source `__make_dict` (scraper.py:113-125): walk the group's nodes;
a `strong` tag sets `player` to its stripped text, an `em` tag sets
`role`; later tags overwrite earlier ones; defaults are the sentinels
`'KEINE ROLLE'` / `'KEINER'`. -/
def make_dict (ns : List Node) : RolePlayer :=
  ns.foldl mdStep ⟨"KEINE ROLLE", "KEINER"⟩

/-- Separator test of the `groupby` key (scraper.py:208):
`str(x).strip() == ','`.  For a `NavigableString`, `str(x)` is the
string itself; for a `Tag`, `str(x)` is its HTML serialization, which
always contains angle brackets and hence never strips to a bare comma. -/
def isSep : Node → Bool
  | .text s => pyStrip s = ","
  | .elem _ _ => false

/-- Accumulator version of the comma partition; `acc` holds the current
group reversed. -/
def splitGroupsAux : List Node → List Node → List (List Node)
  | [], acc => if acc.isEmpty then [] else [acc.reverse]
  | n :: ns, acc =>
    if isSep n then
      if acc.isEmpty then splitGroupsAux ns []
      else acc.reverse :: splitGroupsAux ns []
    else splitGroupsAux ns (n :: acc)

/-- Source scraper.py:208: `groupby(contents, key=λx. str(x).strip() != ',')`
keeping only the groups whose key is `True`, i.e. the maximal runs of
non-bare-comma nodes. -/
def splitGroups (ns : List Node) : List (List Node) :=
  splitGroupsAux ns []

/-- Source scraper.py:208: `artistList = [__make_dict(g) for g in groups]`. -/
def artistList (ns : List Node) : List RolePlayer :=
  (splitGroups ns).map make_dict

/-- Condition on scraper.py:210:
`len(artistList) != 1 or artistList[0]['role'] != 'KEINE ROLLE' or
artistList[0]['player'] != 'KEINER'` (short-circuit `or`). -/
def artistListNontrivial : List RolePlayer → Bool
  | [d] => d.role != "KEINE ROLLE" || d.player != "KEINER"
  | _ => true

/-- One output artist entry: `dict(role=k, names=v)` (scraper.py:223). -/
structure ArtistGroup where
  role : String
  names : List String
deriving DecidableEq

/-- One step of the fold over `artistList` (scraper.py:214-221): `temp`
is a Python dict (insertion-ordered association list with unique keys);
an existing role appends the player to its list, a new role is inserted
at the end. -/
def insertRP (temp : List (String × List String)) (d : RolePlayer) :
    List (String × List String) :=
  if temp.any (fun kv => kv.1 = d.role) then
    temp.map (fun kv => if kv.1 = d.role then (kv.1, kv.2 ++ [d.player]) else kv)
  else temp ++ [(d.role, [d.player])]

/-- Source scraper.py:212-223: fold the `(role, player)` list into the
insertion-ordered dict `temp`, then emit `[dict(role=k, names=v)]`. -/
def foldByRole (l : List RolePlayer) : List (String × List String) :=
  l.foldl insertRP []

/-- Source scraper.py:208-226 (given that the artist `<p>`'s contents
are `ns`): the value stored under `pieceDict['artists']`, or `none` when
the key is left absent. -/
def artistsField (ns : List Node) : Option (List ArtistGroup) :=
  let al := artistList ns
  if artistListNontrivial al then
    let pieceArtists := foldByRole al
    if pieceArtists.length != 0 then
      some (pieceArtists.map (fun kv => ⟨kv.1, kv.2⟩))
    else none
  else none

/-- Header loop of scraper.py:192-198, carrying the current value of
`pieceDict['composer']`: a `strong` tag overwrites the composer, the
first `br` sets the description to
`''.join(map(__extract_text, headers[idx+1:])).strip()` and breaks. -/
def headerLoop : List Node → Option String → Option String × Option String
  | [], comp => (comp, none)
  | n :: rest, comp =>
    if n.name = some "strong" then headerLoop rest (some (pyStrip (nodeText n)))
    else if n.name = some "br" then
      (comp, some (pyStrip (String.join (rest.map extract_text))))
    else headerLoop rest comp

/-- Source scraper.py:191-201: the `(composer, description)` fields of a
piece extracted from the `<h2>` contents, including the fallback that
joins the whole header when neither field was set. -/
def pieceHeaderFields (headers : List Node) : Option String × Option String :=
  let cd := headerLoop headers none
  if cd.1 = none ∧ cd.2 = none then
    (none, some (pyStrip (String.join (headers.map extract_text))))
  else cd

/-! JSON values, HTTP responses and the failure model. -/

/-- Parsed JSON value (`r.json()`).  Numbers are modelled as integers;
the endpoints consumed here (`count`, ids, urls) only carry integers
and strings. -/
inductive Json where
  | null
  | bool (b : Bool)
  | num (n : Int)
  | str (s : String)
  | arr (items : List Json)
  | obj (fields : List (String × Json))

/-- Python truthiness of a JSON value (`if not urls_dict['success']`). -/
def Json.truthy : Json → Bool
  | .null => false
  | .bool b => b
  | .num n => n != 0
  | .str s => s != ""
  | .arr items => !items.isEmpty
  | .obj fields => !fields.isEmpty

/-- Dict lookup on a parsed JSON object.  Objects coming out of
`json.loads` have unique keys, so first-match lookup is dict lookup. -/
def jlookup : List (String × Json) → String → Option Json
  | [], _ => none
  | (k, v) :: rest, key => if k = key then some v else jlookup rest key

/-- Outcome of one `self.__sess.get(...)` call, as the source observes
it: either one of the `requests` exceptions (connection error, timeout,
any other `RequestException`), or a response with a status code and a
body that may or may not parse as JSON (`none` = `r.json()` raises
`ValueError`; for plain HTML pages the body model is unused). -/
inductive FetchResult where
  | transportError
  | response (status : Nat) (body : Option Json)

/-- How the process dies.  `exited` models a `log.error(...)` followed
by `sys.exit(-1)`; `crashed` models an uncaught Python exception
(`KeyError`, `TypeError`, `IndexError`, ...).  Both are abnormal
terminations with a nonzero exit status. -/
inductive RunErr where
  | exited
  | crashed (msg : String)

/-- Process exit status: `sys.exit(-1)` yields status `255` on POSIX,
an uncaught exception yields status `1`. -/
def RunErr.exitCode : RunErr → Nat
  | .exited => 255
  | .crashed _ => 1

/-- Requests' `raise_for_status` raises `HTTPError` exactly for
`400 <= status < 600` (4xx client errors and 5xx server errors);
1xx/3xx codes do not raise. -/
def raisesForStatus (status : Nat) : Bool :=
  400 ≤ status && status < 600

/-- A status code in the 2xx success class. -/
def is2xx (status : Nat) : Bool :=
  200 ≤ status && status < 300

/-- The expression `v[0]['url']` of scraper.py:265 when it evaluates
without raising: `v` must be a list whose first element is an object,
and the object must have a `url` key. -/
def candidateFirstUrl : Json → Option Json
  | .arr (Json.obj fs :: _) => jlookup fs "url"
  | _ => none

/-- The comprehension `{ k: v[0]['url'] for k, v in urls.items() }`
(scraper.py:265); `none` when some entry would raise. -/
def extractFirstUrls (urls : List (String × Json)) :
    Option (List (String × Json)) :=
  urls.mapM (fun kv => (candidateFirstUrl kv.2).map (fun u => (kv.1, u)))

/-- Source `__get_streams` (scraper.py:232-269) applied to the response
of the stream-lookup endpoint.  All `requests` exceptions and
`raise_for_status` errors are caught and turned into logged
`sys.exit(-1)` calls, as is a non-JSON body and a falsy `success` flag
(the latter only if the envelope has the `message` key that the log
line subscripts; otherwise the `KeyError` itself kills the process). -/
def get_streams (resp : FetchResult) : Except RunErr (List (String × Json)) :=
  match resp with
  | .transportError => .error .exited
  | .response status body =>
    if raisesForStatus status then .error .exited
    else
      match body with
      | none => .error .exited
      | some (Json.obj fields) =>
        match jlookup fields "success" with
        | none => .error (.crashed "KeyError: success")
        | some s =>
          if s.truthy = false then
            match jlookup fields "message" with
            | some _ => .error .exited
            | none => .error (.crashed "KeyError: message")
          else
            match jlookup fields "urls" with
            | none => .error (.crashed "KeyError: urls")
            | some (Json.obj urls) =>
              match extractFirstUrls urls with
              | some m => .ok m
              | none => .error (.crashed "bad candidate list")
            | some _ => .error (.crashed "urls not an object")
      | some _ => .error (.crashed "envelope not an object")

/-- Python `len(items) == count` where `count` is an arbitrary JSON
value: `==` between an `int` and a non-number is `False` (except that
`True`/`False` compare as `1`/`0`). -/
def pyEqLen (c : Json) (n : Nat) : Bool :=
  match c with
  | .num m => m == (n : Int)
  | .bool b => (if b then (1 : Int) else 0) == (n : Int)
  | _ => false

/-- Result of `__get_seasons`: the `items` list, plus whether the
`count` consistency check fired (`log.warning`, scraper.py:98-99). -/
structure GetSeasonsOut where
  items : List Json
  warned : Bool

/-- Source `__get_seasons` (scraper.py:69-101): fetch errors and a
non-JSON body exit; a mismatch between `len(items)` and `count` only
logs a warning; the `items` list is returned unchanged.  (A body whose
`items` is not a list is modelled as a crash: such values fail when the
elements are later subscripted with `['id']`.) -/
def get_seasons (resp : FetchResult) : Except RunErr GetSeasonsOut :=
  match resp with
  | .transportError => .error .exited
  | .response status body =>
    if raisesForStatus status then .error .exited
    else
      match body with
      | none => .error .exited
      | some (Json.obj fields) =>
        match jlookup fields "items", jlookup fields "count" with
        | some (Json.arr items), some c => .ok ⟨items, !(pyEqLen c items.length)⟩
        | some _, some _ => .error (.crashed "items not a list")
        | _, _ => .error (.crashed "KeyError: items/count")
      | some _ => .error (.crashed "envelope not an object")

/-! Concert pages and records. -/

/-- One `<li>` of `ul.list-lines > li` (scraper.py:179-228), after the
structural queries: `workId` is the `id` attribute of the
`div.jsConcertWork` (`none` when the div or the attribute is missing,
which raises), `h2` is `piece.find('h2').contents` (`none` when the
`<h2>` is missing, which raises), `artistP` is `piece.find('p').contents`
(`none` when there is no `<p>`, which is tolerated). -/
structure PieceItem where
  workId : Option String
  h2 : Option (List Node)
  artistP : Option (List Node)

/-- Output `pieceDict`.  Every field other than `pieceId` starts out
absent (`none`) and is only present when the code assigns it. -/
structure Piece where
  pieceId : String
  streamUrl : Option Json := none
  composer : Option String := none
  description : Option String := none
  artists : Option (List ArtistGroup) := none

/-- Scraper.py:181-228, the body of the piece loop for one `<li>`. -/
def process_piece (streams : List (String × Json)) (p : PieceItem) :
    Except RunErr Piece :=
  match p.workId with
  | none => .error (.crashed "piece id missing")
  | some pid =>
    match p.h2 with
    | none => .error (.crashed "piece h2 missing")
    | some headers =>
      let su : Json :=
        match jlookup streams pid with
        | some v => v
        | none => .str "not-found"
      let cd := pieceHeaderFields headers
      let arts : Option (List ArtistGroup) :=
        match p.artistP with
        | none => none
        | some ns => artistsField ns
      .ok { pieceId := pid, streamUrl := some su, composer := cd.1,
            description := cd.2, artists := arts }

/-- The `for piece in soup.select(...)` loop (scraper.py:179-228):
append each `pieceDict` in document order; a crash in any iteration
kills the process. -/
def pieces_loop (streams : List (String × Json)) :
    List PieceItem → Except RunErr (List Piece)
  | [] => .ok []
  | p :: rest =>
    match process_piece streams p with
    | .error e => .error e
    | .ok pc =>
      match pieces_loop streams rest with
      | .error e => .error e
      | .ok pcs => .ok (pc :: pcs)

/-- A concert page after the structural queries of
`__extract_metadata`: one field per selector, `none`/`[]` when the
selector finds nothing. -/
structure ConcertPage where
  titleTag : Option Node
  programmeTag : Option Node
  guideTag : Option Node
  concertMetaTag : Option (List Node)
  mainArtistTag : Option (List Node)
  starArtists : List Node
  supportTag : Option Node
  pieces : List PieceItem

/-- Output concert record (`metaDict`). -/
structure ConcertRec where
  concertId : String
  concertTitle : Option String := none
  concertProgramme : Option String := none
  concertProgrammeGuide : Option String := none
  concertDate : String
  concertMeta : Option String := none
  mainArtist : Option String := none
  conductor : Option String := none
  starArtists : Option (List String) := none
  support : Option String := none
  pieces : List Piece

/-- Scraper.py:150-155: `p.concertMeta` is mandatory (a missing tag
raises `AttributeError` on `.contents`), `metaElms[0]` must be a bare
string (on a tag, `.replace` resolves to a `find` call returning `None`
and calling it raises `TypeError`), and the third element - present
exactly when `len(metaElms) == 3` - must likewise be a bare string. -/
def concertDateMeta (metaTag : Option (List Node)) :
    Except RunErr (String × Option String) :=
  match metaTag with
  | none => .error (.crashed "p.concertMeta missing")
  | some [] => .error (.crashed "IndexError: metaElms[0]")
  | some (Node.elem _ _ :: _) => .error (.crashed "metaElms[0] not a string")
  | some (Node.text d :: rest) =>
    let date := pyStrip (pyReplace '–' '-' d)
    match rest with
    | [_, Node.text m] =>
      .ok (date, some (pyReplace '’' '\'' (" ".intercalate (pySplit m))))
    | [_, Node.elem _ _] => .error (.crashed "metaElms[2] not a string")
    | _ => .ok (date, none)

/-- Scraper.py:157-168: `p.mainArtist` is mandatory; `mainElms[0]` is
stripped directly when it is a string and via `.text` when the direct
`.strip` raises (`except TypeError` branch); an empty contents list is
tolerated (`except IndexError: pass`); the conductor is set exactly
when `len(mainElms) == 3`. -/
def mainArtistConductor (mainTag : Option (List Node)) :
    Except RunErr (Option String × Option String) :=
  match mainTag with
  | none => .error (.crashed "p.mainArtist missing")
  | some mainElms =>
    let mainArtist : Option String :=
      match mainElms.head? with
      | none => none
      | some (Node.text s) => some (pyStrip s)
      | some t => some (pyStrip (nodeText t))
    let conductor : Option String :=
      match mainElms with
      | [_, _, c] => some (" ".intercalate (pySplit (nodeText c)))
      | _ => none
    .ok (mainArtist, conductor)

/-- Source `__extract_metadata` (scraper.py:127-230), taking the
already-resolved stream map (the source resolves it first, see
`handle_concert`).  Optional top-level fields are omitted when their
selector finds nothing; title/programme/guide replace `'’'` and
strip; star artists are whitespace-collapsed. -/
def extract_metadata (concert_id : String) (streams : List (String × Json))
    (page : ConcertPage) : Except RunErr ConcertRec :=
  match concertDateMeta page.concertMetaTag with
  | .error e => .error e
  | .ok dm =>
    match mainArtistConductor page.mainArtistTag with
    | .error e => .error e
    | .ok mc =>
      match pieces_loop streams page.pieces with
      | .error e => .error e
      | .ok pcs =>
        .ok { concertId := concert_id
              concertTitle :=
                page.titleTag.map (fun t => pyStrip (pyReplace '’' '\'' (nodeText t)))
              concertProgramme :=
                page.programmeTag.map (fun t => pyStrip (pyReplace '’' '\'' (nodeText t)))
              concertProgrammeGuide :=
                page.guideTag.map (fun t => pyStrip (pyReplace '’' '\'' (nodeText t)))
              concertDate := dm.1
              concertMeta := dm.2
              mainArtist := mc.1
              conductor := mc.2
              starArtists :=
                if page.starArtists.length != 0 then
                  some (page.starArtists.map extract_text)
                else none
              support := page.supportTag.map (fun t => pyStrip (nodeText t))
              pieces := pcs }

/-! The run model: environments, request events, orchestration. -/

/-- One network request or file write performed by a run. -/
inductive Event where
  | getSeasons
  | getSeasonPage (seasonId : String)
  | getConcertPage (concertId : String)
  | getStreamsFor (contentId : String)
  | getFilms
  | getFilmPage (filmId : String)
  | writeOutput (name : String)
deriving DecidableEq

/-- Result of fetching an HTML page: `fail` is any of the caught
`requests` exceptions or a `raise_for_status` error (all of which exit
after logging); `got` carries the parsed page. -/
inductive Fetched (α : Type) where
  | fail
  | got (a : α)

/-- The external world of a `scrape_seasons` run: the season index
response, the concert-id attributes (`li.archive`'s `id`) listed on
each season page, each concert's parsed page, and the raw stream
endpoint response for each content id. -/
structure SeasonsEnv where
  seasonsResp : FetchResult
  seasonPageResp : String → Fetched (List String)
  concertPageResp : String → Fetched ConcertPage
  streamsResp : String → FetchResult

/-- Source `__handle_concert` (scraper.py:271-299): the seen-set test
`concert_id not in self.__concert_id_list` comes first; only when it
passes is the concert page fetched and `__extract_metadata` (which
itself starts by calling `__get_streams`) run.  Returns the requests
issued together with the result (`none` = skipped). -/
def handle_concert (env : SeasonsEnv) (seen : List String)
    (concert_id : String) :
    List Event × Except RunErr (Option ConcertRec) :=
  if seen.contains concert_id then ([], .ok none)
  else
    match env.concertPageResp concert_id with
    | .fail => ([.getConcertPage concert_id], .error .exited)
    | .got page =>
      match get_streams (env.streamsResp concert_id) with
      | .error e => ([.getConcertPage concert_id, .getStreamsFor concert_id], .error e)
      | .ok streams =>
        match extract_metadata concert_id streams page with
        | .error e =>
          ([.getConcertPage concert_id, .getStreamsFor concert_id], .error e)
        | .ok rec =>
          ([.getConcertPage concert_id, .getStreamsFor concert_id], .ok (some rec))

/-- The concert loop of `__handle_season` (scraper.py:327-334):
skipped concerts (`None`) are not appended. -/
def concerts_loop (env : SeasonsEnv) (seen : List String) :
    List String → List Event × Except RunErr (List ConcertRec)
  | [] => ([], .ok [])
  | cid :: rest =>
    match handle_concert env seen cid with
    | (evs, .error e) => (evs, .error e)
    | (evs, .ok oc) =>
      match concerts_loop env seen rest with
      | (evs2, .error e) => (evs ++ evs2, .error e)
      | (evs2, .ok recs) =>
        (evs ++ evs2, .ok (match oc with | some c => c :: recs | none => recs))

/-- Output season record (`season_dict`, scraper.py:325). -/
structure SeasonRec where
  seasonId : String
  season : String
  concerts : List ConcertRec

/-- Source `__handle_season` (scraper.py:301-336): fetch the season
listing (failure exits), slice each `li.archive` id attribute with
`[8:]`, process the concerts in order, and label the season with
`label.replace('–', '-')`. -/
def handle_season (env : SeasonsEnv) (seen : List String)
    (season_id : String) (label : String) :
    List Event × Except RunErr SeasonRec :=
  match env.seasonPageResp season_id with
  | .fail => ([.getSeasonPage season_id], .error .exited)
  | .got raws =>
    match concerts_loop env seen (raws.map (pyDrop 8)) with
    | (evs, .error e) => (.getSeasonPage season_id :: evs, .error e)
    | (evs, .ok recs) =>
      (.getSeasonPage season_id :: evs,
        .ok ⟨season_id, pyReplace '–' '-' label, recs⟩)

/-- The `season['id']` / `season['label']` accesses (scraper.py:303-304),
modelled for string-valued fields; other shapes are not exercised. -/
def seasonFields : Json → Option (String × String)
  | .obj fs =>
    match jlookup fs "id", jlookup fs "label" with
    | some (.str i), some (.str l) => some (i, l)
    | _, _ => none
  | _ => none

/-- The season loop of `scrape_seasons` (scraper.py:346-348). -/
def seasons_loop (env : SeasonsEnv) (seen : List String) :
    List Json → List Event × Except RunErr (List SeasonRec)
  | [] => ([], .ok [])
  | j :: rest =>
    match seasonFields j with
    | none => ([], .error (.crashed "season item fields"))
    | some sl =>
      match handle_season env seen sl.1 sl.2 with
      | (evs, .error e) => (evs, .error e)
      | (evs, .ok s) =>
        match seasons_loop env seen rest with
        | (evs2, .error e) => (evs ++ evs2, .error e)
        | (evs2, .ok ss) => (evs ++ evs2, .ok (s :: ss))

/-- Source `scrape_seasons` (scraper.py:338-352): fetch the season
index, process every season, and only after the whole loop completes
write the batch (`__write_output('seasons')`). -/
def scrape_seasons (env : SeasonsEnv) (seen : List String) :
    List Event × Except RunErr (List SeasonRec) :=
  match get_seasons env.seasonsResp with
  | .error e => ([.getSeasons], .error e)
  | .ok out =>
    match seasons_loop env seen out.items with
    | (evs, .error e) => (.getSeasons :: evs, .error e)
    | (evs, .ok batch) =>
      (.getSeasons :: evs ++ [.writeOutput "seasons"], .ok batch)

/-! The films run. -/

/-- One `li.item` entry of the films index page: the `<a>`'s `href`
and `title` attributes. -/
structure FilmItem where
  href : String
  title : String

/-- The catalog-listing dict built by `__get_films`. -/
structure FilmListing where
  film_id : String
  title : String

/-- Source `__extract_film_data` (scraper.py:354-359):
`film_id = link['href'].split('/')[-1]`. -/
def extract_film_data (tag : FilmItem) : FilmListing :=
  ⟨(pySplitOnChar '/' tag.href).getLastD "", tag.title⟩

/-- A film page after the structural queries of `__handle_film`. -/
structure FilmPage where
  subTitleTag : Option Node
  actorsTags : List Node
  descTag : Option Node
  creditsTag : Option Node

/-- Output film record (the mutated `film_dict`). -/
structure FilmRec where
  film_id : String
  title : String
  streamUrl : Option Json := none
  subtitle : Option String := none
  actors : Option (List String) := none
  description : Option String := none
  credits : Option String := none

/-- The record-building part of `__handle_film` (scraper.py:419-441):
stream sentinel policy identical to pieces; subtitle, actors,
description and credits are independently optional and only stripped. -/
def build_film_record (fd : FilmListing) (streams : List (String × Json))
    (page : FilmPage) : FilmRec :=
  { film_id := fd.film_id
    title := fd.title
    streamUrl := some
      (match jlookup streams fd.film_id with
       | some v => v
       | none => .str "not-found")
    subtitle := page.subTitleTag.map (fun t => pyStrip (nodeText t))
    actors :=
      if page.actorsTags.length != 0 then
        some (page.actorsTags.map (fun a => pyStrip (nodeText a)))
      else none
    description := page.descTag.map (fun t => pyStrip (nodeText t))
    credits := page.creditsTag.map (fun t => pyStrip (nodeText t)) }

/-- The external world of a `scrape_films` run. -/
structure FilmsEnv where
  filmsResp : Fetched (List FilmItem)
  filmPageResp : String → Fetched FilmPage
  streamsResp : String → FetchResult

/-- Source `__handle_film` (scraper.py:391-444): seen-set test first;
then the film page is fetched, then the streams are resolved, then the
record is built and appended (`none` = skipped, nothing appended). -/
def handle_film (env : FilmsEnv) (seen : List String) (fd : FilmListing) :
    List Event × Except RunErr (Option FilmRec) :=
  if seen.contains fd.film_id then ([], .ok none)
  else
    match env.filmPageResp fd.film_id with
    | .fail => ([.getFilmPage fd.film_id], .error .exited)
    | .got page =>
      match get_streams (env.streamsResp fd.film_id) with
      | .error e => ([.getFilmPage fd.film_id, .getStreamsFor fd.film_id], .error e)
      | .ok streams =>
        ([.getFilmPage fd.film_id, .getStreamsFor fd.film_id],
          .ok (some (build_film_record fd streams page)))

/-- The film loop of `scrape_films` (scraper.py:455-457). -/
def films_loop (env : FilmsEnv) (seen : List String) :
    List FilmListing → List Event × Except RunErr (List FilmRec)
  | [] => ([], .ok [])
  | fd :: rest =>
    match handle_film env seen fd with
    | (evs, .error e) => (evs, .error e)
    | (evs, .ok orec) =>
      match films_loop env seen rest with
      | (evs2, .error e) => (evs ++ evs2, .error e)
      | (evs2, .ok recs) =>
        (evs ++ evs2, .ok (match orec with | some r => r :: recs | none => recs))

/-- Source `scrape_films` (scraper.py:446-461): fetch the films index
(failure exits), process every film, then write the batch once. -/
def scrape_films (env : FilmsEnv) (seen : List String) :
    List Event × Except RunErr (List FilmRec) :=
  match env.filmsResp with
  | .fail => ([.getFilms], .error .exited)
  | .got items =>
    match films_loop env seen (items.map extract_film_data) with
    | (evs, .error e) => (.getFilms :: evs, .error e)
    | (evs, .ok recs) =>
      (.getFilms :: evs ++ [.writeOutput "films"], .ok recs)

/-! Derived catalog views used to state run-level claims. -/

/-- The concert ids a season item contributes to the run, as dictated
by the environment alone. -/
def catalogOfItem (env : SeasonsEnv) (j : Json) : List String :=
  match seasonFields j with
  | none => []
  | some sl =>
    match env.seasonPageResp sl.1 with
    | .fail => []
    | .got raws => raws.map (pyDrop 8)

/-- All concert ids the catalog (season index plus season pages) lists,
in processing order, before any seen-set filtering. -/
def catalogConcertIds (env : SeasonsEnv) : List String :=
  match get_seasons env.seasonsResp with
  | .error _ => []
  | .ok out => out.items.flatMap (catalogOfItem env)

/-- All film ids the films index lists, in processing order. -/
def catalogFilmIds (env : FilmsEnv) : List String :=
  match env.filmsResp with
  | .fail => []
  | .got items => (items.map extract_film_data).map (fun l => l.film_id)

/-! Derived notions used in the statements of the claims. -/

/-- Names list stored under role `r` in the insertion-ordered dict
(`[]` when the role is absent). -/
def roleNames (r : String) (temp : List (String × List String)) : List String :=
  match temp.find? (fun kv => kv.1 = r) with
  | some kv => kv.2
  | none => []

/-- One step of first-seen-order deduplication: append a role unless it
was already seen. -/
def fsStep (acc : List String) (r : String) : List String :=
  if r ∈ acc then acc else acc ++ [r]

/-- First-seen-order deduplication of a list of role strings - the key
order of a Python dict populated left to right. -/
def firstSeen (rs : List String) : List String :=
  rs.foldl fsStep []

/-- Modelled from the spec (§4.2, §8): in the fallback case "the entire
header's text is used verbatim as the description" - the text of the
whole header, whitespace-normalized the way §4.2 says all text
extraction is.  Compared against what the code actually computes. -/
def specHeaderFullText (headers : List Node) : String :=
  " ".intercalate (pySplit (nodesText headers))

/-- Modelled from the spec (§4.2): the uniform normalization the spec
asserts for every extracted field - internal whitespace runs collapsed
to single spaces, ends trimmed, and U+2019/U+2013 replaced by ASCII.
Compared against the fields the code actually produces. -/
def specUniformNormalized (s : String) : Prop :=
  s = " ".intercalate (pySplit s) ∧ pyReplace '’' '\'' s = s ∧
    pyReplace '–' '-' s = s

/-- The failure conditions of the stream lookup, as amended: a
transport-level error, an HTTP status `raise_for_status` raises for
(4xx/5xx), a body that is not valid JSON, or an envelope whose
`success` field is falsy. -/
def streamFailure (resp : FetchResult) : Prop :=
  resp = .transportError ∨
  (∃ st body, resp = .response st body ∧ raisesForStatus st = true) ∨
  (∃ st, resp = .response st none) ∨
  (∃ st fields s, resp = .response st (some (.obj fields)) ∧
    jlookup fields "success" = some s ∧ s.truthy = false)

/-- Concert ids of every concert record in a run result (empty on an
aborted run). -/
def concertIdsOfRun (r : List Event × Except RunErr (List SeasonRec)) :
    List String :=
  match r.2 with
  | .ok batch => batch.flatMap (fun s => s.concerts.map (fun c => c.concertId))
  | .error _ => []

/-- Subtitle of the film record a `handle_film` call produced, if any. -/
def filmSubtitleOf (r : List Event × Except RunErr (Option FilmRec)) :
    Option String :=
  match r.2 with
  | (.ok (some rec)) => rec.subtitle
  | _ => none

/-! Concrete demonstration inputs used by witnesses/counterexamples. -/

/-- A stream envelope in the provider's success shape (§6), used to
show that a non-2xx, non-4xx/5xx status is not treated as a failure. -/
def demoEnvelope : Json :=
  .obj [("success", .bool true),
        ("urls", .obj [("42", .arr [.obj [("url", .str "https://x/a")],
                                    .obj [("url", .str "https://x/b")]])])]

/-- A minimal well-formed concert page: mandatory `p.concertMeta` and
`p.mainArtist` fragments present, no pieces. -/
def demoPage : ConcertPage :=
  { titleTag := none
    programmeTag := none
    guideTag := none
    concertMetaTag := some [Node.text " 12 Mar 2020 "]
    mainArtistTag := some []
    starArtists := []
    supportTag := none
    pieces := [] }

/-- The concert record `demoPage` yields for a given id. -/
def demoRec (cid : String) : ConcertRec :=
  { concertId := cid, concertDate := "12 Mar 2020", pieces := [] }

/-- An environment whose catalog lists the same concert id `"7"` twice
on one season page, with everything else well-formed. -/
def envDupCatalog : SeasonsEnv :=
  { seasonsResp := .response 200 (some (.obj
      [("items", .arr [.obj [("id", .str "s1"), ("label", .str "Season one")]]),
       ("count", .num 1)]))
    seasonPageResp := fun sid =>
      if sid = "s1" then .got ["concert_7", "concert_7"] else .fail
    concertPageResp := fun cid => if cid = "7" then .got demoPage else .fail
    streamsResp := fun _ =>
      .response 200 (some (.obj [("success", .bool true), ("urls", .obj [])])) }

/-- An environment whose single season lists only concert `"991231"`,
used with a seen-set that already contains that id. -/
def envSkipDemo : SeasonsEnv :=
  { seasonsResp := .response 200 (some (.obj
      [("items", .arr [.obj [("id", .str "s1"), ("label", .str "Season one")]]),
       ("count", .num 1)]))
    seasonPageResp := fun sid =>
      if sid = "s1" then .got ["concert_991231"] else .fail
    concertPageResp := fun _ => .fail
    streamsResp := fun _ => .transportError }

/-- An environment whose very first fetch fails, aborting the run. -/
def envFailDemo : SeasonsEnv :=
  { seasonsResp := .transportError
    seasonPageResp := fun _ => .fail
    concertPageResp := fun _ => .fail
    streamsResp := fun _ => .transportError }

/-- A concert page with one piece (id `"p1"`), used to exercise stream
resolution. -/
def demoC1Page : ConcertPage :=
  { titleTag := none
    programmeTag := none
    guideTag := none
    concertMetaTag := some [Node.text "1 Jan 2020"]
    mainArtistTag := some []
    starArtists := []
    supportTag := none
    pieces := [⟨some "p1", some [Node.text "Ouverture"], none⟩] }

/-- The concert record `demoC1Page` yields. -/
def demoC1Rec : ConcertRec :=
  { concertId := "c1"
    concertDate := "1 Jan 2020"
    pieces := [{ pieceId := "p1", streamUrl := some (.str "https://s/p1"),
                 description := some "Ouverture" }] }

/-- A film page whose subtitle carries a typographic apostrophe and a
doubled internal space. -/
def demoFilmPage : FilmPage :=
  { subTitleTag := some (Node.text "Mozart’s  Requiem")
    actorsTags := []
    descTag := none
    creditsTag := none }

/-- A films environment serving `demoFilmPage` for film id `"f1"`. -/
def envFilmDemo : FilmsEnv :=
  { filmsResp := .got [⟨"/en/film/f1", "A film"⟩]
    filmPageResp := fun fid => if fid = "f1" then .got demoFilmPage else .fail
    streamsResp := fun _ =>
      .response 200 (some (.obj [("success", .bool true),
        ("urls", .obj [("f1", .arr [.obj [("url", .str "https://x/f")]])])])) }

/-- A concert page whose title keeps a doubled space and whose date
carries an en-dash, with a star artist needing whitespace collapse. -/
def pageStar : ConcertPage :=
  { titleTag := some (Node.text "It’s  big")
    programmeTag := none
    guideTag := none
    concertMetaTag := some [Node.text " 12–13 Mar "]
    mainArtistTag := some []
    starArtists := [Node.text " Anna  Maria "]
    supportTag := none
    pieces := [] }

/-- The concert record `pageStar` yields: the title keeps its internal
double space (only U+2019 is replaced and the ends stripped), while the
star artist is whitespace-collapsed. -/
def recStar : ConcertRec :=
  { concertId := "c7"
    concertTitle := some "It's  big"
    concertDate := "12-13 Mar"
    starArtists := some ["Anna Maria"]
    pieces := [] }

/-- The film record `envFilmDemo` yields for film `"f1"`. -/
def demoFilmRec : FilmRec :=
  { film_id := "f1"
    title := "A film"
    streamUrl := some (.str "https://x/f")
    subtitle := some "Mozart’s  Requiem" }

/-! Helper lemmas. -/

theorem mdStep_eq_self (acc : RolePlayer) (n : Node)
    (h1 : Node.name n ≠ some "strong") (h2 : Node.name n ≠ some "em") :
    mdStep acc n = acc := by
  simp [mdStep, h1, h2]

theorem foldl_mdStep_eq_init (ns : List Node) :
    ∀ acc : RolePlayer,
      (∀ n ∈ ns, Node.name n ≠ some "strong" ∧ Node.name n ≠ some "em") →
      ns.foldl mdStep acc = acc := by
  induction ns with
  | nil => intro acc _; rfl
  | cons n rest ih =>
    intro acc h
    have hn := h n (List.mem_cons_self n rest)
    rw [List.foldl_cons, mdStep_eq_self acc n hn.1 hn.2]
    exact ih acc (fun m hm => h m (List.mem_cons_of_mem n hm))

theorem make_dict_bare (g : List Node)
    (h : ∀ n ∈ g, Node.name n ≠ some "strong" ∧ Node.name n ≠ some "em") :
    make_dict g = ⟨"KEINE ROLLE", "KEINER"⟩ :=
  foldl_mdStep_eq_init g _ h

theorem process_piece_ok (streams : List (String × Json)) (p : PieceItem)
    (pc : Piece) (h : process_piece streams p = .ok pc) :
    ∃ pid headers, p.workId = some pid ∧ p.h2 = some headers ∧
      pc = ⟨pid,
            some (match jlookup streams pid with
                  | some v => v
                  | none => .str "not-found"),
            (pieceHeaderFields headers).1, (pieceHeaderFields headers).2,
            (match p.artistP with
             | none => none
             | some ns => artistsField ns)⟩ := by
  unfold process_piece at h
  split at h
  · exact Except.noConfusion h
  · split at h
    · exact Except.noConfusion h
    · injection h with h
      exact ⟨_, _, by assumption, by assumption, h.symm⟩

theorem map_fst_insertRP (temp : List (String × List String)) (d : RolePlayer) :
    (insertRP temp d).map Prod.fst = fsStep (temp.map Prod.fst) d.role := by
  unfold insertRP fsStep
  have hmem : ((temp.any fun kv => kv.1 = d.role) = true) ↔
      d.role ∈ temp.map Prod.fst := by
    simp [List.any_eq_true, List.mem_map]
  by_cases h : d.role ∈ temp.map Prod.fst
  · rw [if_pos (hmem.mpr h), if_pos h, List.map_map]
    apply List.map_congr_left
    intro kv _
    by_cases hk : kv.1 = d.role <;> simp [hk]
  · rw [if_neg (fun hc => h (hmem.mp hc)), if_neg h, List.map_append]
    rfl

theorem roleNames_map_update (d : RolePlayer) (r : String)
    (temp : List (String × List String)) :
    roleNames r (temp.map
        (fun kv => if kv.1 = d.role then (kv.1, kv.2 ++ [d.player]) else kv)) =
      match temp.find? (fun kv => kv.1 = r) with
      | some kv => if d.role = r then kv.2 ++ [d.player] else kv.2
      | none => [] := by
  induction temp with
  | nil => rfl
  | cons x rest ih =>
    unfold roleNames at ih ⊢
    rw [List.map_cons]
    by_cases hd : x.1 = d.role
    · rw [if_pos hd]
      by_cases hx : x.1 = r
      · rw [List.find?_cons_of_pos _ (by simpa using hx),
          List.find?_cons_of_pos _ (by simpa using hx)]
        have hdr : d.role = r := by rw [← hd, hx]
        simp [hdr]
      · rw [List.find?_cons_of_neg _ (by simpa using hx),
          List.find?_cons_of_neg _ (by simpa using hx)]
        exact ih
    · rw [if_neg hd]
      by_cases hx : x.1 = r
      · rw [List.find?_cons_of_pos _ (by simpa using hx),
          List.find?_cons_of_pos _ (by simpa using hx)]
        have hdr : ¬ d.role = r := fun hc => hd (hx.trans hc.symm)
        simp [hdr]
      · rw [List.find?_cons_of_neg _ (by simpa using hx),
          List.find?_cons_of_neg _ (by simpa using hx)]
        exact ih

theorem roleNames_append (k : String) (v : List String) (r : String)
    (temp : List (String × List String)) :
    roleNames r (temp ++ [(k, v)]) =
      match temp.find? (fun kv => kv.1 = r) with
      | some kv => kv.2
      | none => if k = r then v else [] := by
  induction temp with
  | nil =>
    unfold roleNames
    by_cases hk : k = r
    · rw [List.nil_append, List.find?_cons_of_pos _ (by simpa using hk)]
      simp [hk]
    · rw [List.nil_append, List.find?_cons_of_neg _ (by simpa using hk)]
      simp [hk]
  | cons x rest ih =>
    unfold roleNames at ih ⊢
    by_cases hx : x.1 = r
    · rw [List.cons_append, List.find?_cons_of_pos _ (by simpa using hx),
        List.find?_cons_of_pos _ (by simpa using hx)]
    · rw [List.cons_append, List.find?_cons_of_neg _ (by simpa using hx),
        List.find?_cons_of_neg _ (by simpa using hx)]
      exact ih

theorem roleNames_insertRP (d : RolePlayer) (r : String)
    (temp : List (String × List String)) :
    roleNames r (insertRP temp d) =
      if d.role = r then roleNames r temp ++ [d.player]
      else roleNames r temp := by
  unfold insertRP
  by_cases hany : (temp.any fun kv => kv.1 = d.role) = true
  · rw [if_pos hany, roleNames_map_update]
    unfold roleNames
    by_cases hdr : d.role = r
    · subst hdr
      have hsome : (temp.find? (fun kv => kv.1 = d.role)).isSome := by
        rw [List.find?_isSome]
        simpa [List.any_eq_true] using hany
      obtain ⟨kv, hkv⟩ := Option.isSome_iff_exists.mp hsome
      rw [hkv]
    · cases hfind : temp.find? (fun kv => kv.1 = r) <;> simp [hdr, hfind]
  · rw [if_neg hany, roleNames_append]
    unfold roleNames
    by_cases hdr : d.role = r
    · have hnone : temp.find? (fun kv => kv.1 = r) = none := by
        rw [List.find?_eq_none]
        intro kv hkv
        intro hc
        apply hany
        rw [List.any_eq_true]
        exact ⟨kv, hkv, by simpa [hdr] using hc⟩
      rw [hnone]
      simp [hdr, hnone]
    · cases hfind : temp.find? (fun kv => kv.1 = r) <;> simp [hdr, hfind]

theorem roleNames_foldl (l : List RolePlayer) :
    ∀ temp r, roleNames r (l.foldl insertRP temp) =
      roleNames r temp ++
        (l.filter (fun d => d.role = r)).map (fun d => d.player) := by
  induction l with
  | nil => intro temp r; simp
  | cons d rest ih =>
    intro temp r
    rw [List.foldl_cons, ih, roleNames_insertRP]
    by_cases hdr : d.role = r
    · rw [if_pos hdr, List.filter_cons_of_pos (by simpa using hdr),
        List.map_cons, List.append_assoc, List.singleton_append]
    · rw [if_neg hdr, List.filter_cons_of_neg (by simpa using hdr)]

theorem map_fst_foldl (l : List RolePlayer) :
    ∀ temp, (l.foldl insertRP temp).map Prod.fst =
      (l.map (fun d => d.role)).foldl fsStep (temp.map Prod.fst) := by
  induction l with
  | nil => intro temp; rfl
  | cons d rest ih =>
    intro temp
    rw [List.foldl_cons, ih, map_fst_insertRP, List.map_cons, List.foldl_cons]

theorem foldl_fsStep_nodup (rs : List String) :
    ∀ acc : List String, acc.Nodup → (rs.foldl fsStep acc).Nodup := by
  induction rs with
  | nil => intro acc h; exact h
  | cons r rest ih =>
    intro acc h
    rw [List.foldl_cons]
    apply ih
    unfold fsStep
    split
    · exact h
    · exact List.Nodup.append h (List.nodup_singleton r)
        (by simpa [List.disjoint_singleton] using (by assumption : ¬ r ∈ acc))

theorem firstSeen_nodup (rs : List String) : (firstSeen rs).Nodup :=
  foldl_fsStep_nodup rs [] (by simp)

theorem foldByRole_keys (l : List RolePlayer) :
    (foldByRole l).map Prod.fst = firstSeen (l.map (fun d => d.role)) := by
  unfold foldByRole firstSeen
  simpa using map_fst_foldl l []

theorem roleNames_foldByRole (l : List RolePlayer) (r : String) :
    roleNames r (foldByRole l) =
      (l.filter (fun d => d.role = r)).map (fun d => d.player) := by
  unfold foldByRole
  simpa [roleNames] using roleNames_foldl l [] r

theorem find?_of_mem_nodupKeys (kv : String × List String) :
    ∀ temp : List (String × List String), (temp.map Prod.fst).Nodup →
      kv ∈ temp → temp.find? (fun x => x.1 = kv.1) = some kv := by
  intro temp
  induction temp with
  | nil => intro _ hkv; cases hkv
  | cons x rest ih =>
    intro hnd hkv
    rw [List.map_cons, List.nodup_cons] at hnd
    rcases List.mem_cons.mp hkv with heq | hmem
    · subst heq
      rw [List.find?_cons_of_pos _ (by simp)]
    · have hx : ¬ (x.1 = kv.1) := by
        intro hc
        exact hnd.1 (hc ▸ List.mem_map_of_mem Prod.fst hmem)
      rw [List.find?_cons_of_neg _ (by simpa using hx)]
      exact ih hnd.2 hmem

theorem mem_foldByRole_names (l : List RolePlayer)
    (kv : String × List String) (hkv : kv ∈ foldByRole l) :
    kv.2 = (l.filter (fun d => d.role = kv.1)).map (fun d => d.player) := by
  have hnd : ((foldByRole l).map Prod.fst).Nodup := by
    rw [foldByRole_keys]; exact firstSeen_nodup _
  have hfind := find?_of_mem_nodupKeys kv (foldByRole l) hnd hkv
  have := roleNames_foldByRole l kv.1
  rw [roleNames, hfind] at this
  exact this

/-! Claim C5. -/

/-- C5: groups with identical role strings are folded into a single
ArtistGroup whose names list carries all their players in group order,
roles within one piece's artists are pairwise distinct, and roles
appear in first-seen order. -/
theorem artists_folded_by_role (ns : List Node) (ags : List ArtistGroup)
    (h : artistsField ns = some ags) :
    (ags.map (fun ag => ag.role)).Nodup ∧
    (∀ ag ∈ ags,
      ag.names = ((artistList ns).filter (fun d => d.role = ag.role)).map
        (fun d => d.player)) ∧
    ags.map (fun ag => ag.role) =
      firstSeen ((artistList ns).map (fun d => d.role)) := by
  have heq : artistsField ns =
      if artistListNontrivial (artistList ns) then
        if (foldByRole (artistList ns)).length != 0 then
          some ((foldByRole (artistList ns)).map (fun kv => ⟨kv.1, kv.2⟩))
        else none
      else none := rfl
  rw [heq] at h
  split at h
  case isFalse => exact Option.noConfusion h
  split at h
  case isFalse => exact Option.noConfusion h
  injection h with h
  subst h
  have hmap : ((foldByRole (artistList ns)).map
        (fun kv => (⟨kv.1, kv.2⟩ : ArtistGroup))).map (fun ag => ag.role) =
      (foldByRole (artistList ns)).map Prod.fst := by
    rw [List.map_map]; rfl
  refine ⟨?_, ?_, ?_⟩
  · rw [hmap, foldByRole_keys]
    exact firstSeen_nodup _
  · intro ag hag
    obtain ⟨kv, hkv, hag⟩ := List.mem_map.mp hag
    subst hag
    exact mem_foldByRole_names _ kv hkv
  · rw [hmap, foldByRole_keys]

/-- Witness for C5: two comma-separated groups sharing the role
`"Klavier"` fold into one group with two names; a third distinct role
stays separate and the first-seen order is kept. -/
theorem artists_folded_by_role_witness :
    artistsField
        [Node.elem "strong" [Node.text "A"], Node.elem "em" [Node.text "Klavier"],
         Node.text ",",
         Node.elem "strong" [Node.text "B"], Node.elem "em" [Node.text "Klavier"],
         Node.text ",",
         Node.elem "strong" [Node.text "C"], Node.elem "em" [Node.text "Geige"]] =
      some [⟨"Klavier", ["A", "B"]⟩, ⟨"Geige", ["C"]⟩] ∧
    ([(⟨"Klavier", ["A", "B"]⟩ : ArtistGroup), ⟨"Geige", ["C"]⟩].map
        (fun ag => ag.role)).Nodup := by
  constructor
  · rfl
  · exact (artists_folded_by_role
      [Node.elem "strong" [Node.text "A"], Node.elem "em" [Node.text "Klavier"],
       Node.text ",",
       Node.elem "strong" [Node.text "B"], Node.elem "em" [Node.text "Klavier"],
       Node.text ",",
       Node.elem "strong" [Node.text "C"], Node.elem "em" [Node.text "Geige"]]
      [⟨"Klavier", ["A", "B"]⟩, ⟨"Geige", ["C"]⟩] rfl).1

/-! Claim C4. -/

/-- C4: for every piece whose artist fragment partitions (by bare-comma
text nodes) into exactly one group containing neither a bold/strong
player node nor an italic/em role node, the produced Piece record has
no `artists` field at all (modelled as `none`), rather than a sentinel
group. -/
theorem single_bare_group_no_artists_field
    (streams : List (String × Json)) (p : PieceItem) (ns g : List Node)
    (hp : p.artistP = some ns) (hg : splitGroups ns = [g])
    (hbare : ∀ n ∈ g, Node.name n ≠ some "strong" ∧ Node.name n ≠ some "em")
    (pc : Piece) (hpc : process_piece streams p = .ok pc) :
    pc.artists = none := by
  obtain ⟨pid, headers, hw, hh, hpc⟩ := process_piece_ok _ _ _ hpc
  subst hpc
  show (match p.artistP with
        | none => none
        | some ns => artistsField ns) = none
  rw [hp]
  show artistsField ns = none
  unfold artistsField artistList
  rw [hg, List.map_singleton, make_dict_bare g hbare]
  rfl

/-- Witness for C4: a fragment consisting of one bare name, in a piece
whose id has no stream entry. -/
theorem single_bare_group_no_artists_field_witness :
    process_piece []
        ⟨some "w1", some [Node.text "Träumerei"], some [Node.text "John Doe"]⟩ =
      .ok ⟨"w1", some (.str "not-found"), none, some "Träumerei", none⟩ ∧
    (⟨"w1", some (.str "not-found"), none, some "Träumerei", none⟩ : Piece).artists =
      none := by
  refine ⟨rfl, ?_⟩
  exact single_bare_group_no_artists_field []
    ⟨some "w1", some [Node.text "Träumerei"], some [Node.text "John Doe"]⟩
    [Node.text "John Doe"] [Node.text "John Doe"] rfl rfl (by decide) _ rfl

/-! Claim C6 infrastructure. -/

theorem headerLoop_no_markup (hs : List Node) :
    ∀ comp : Option String,
      (∀ n ∈ hs, Node.name n ≠ some "strong" ∧ Node.name n ≠ some "br") →
      headerLoop hs comp = (comp, none) := by
  induction hs with
  | nil => intro comp _; rfl
  | cons n rest ih =>
    intro comp h
    have hn := h n (List.mem_cons_self n rest)
    simp only [headerLoop]
    rw [if_neg hn.1, if_neg hn.2]
    exact ih comp (fun m hm => h m (List.mem_cons_of_mem n hm))

theorem headerLoop_first_br (pre : List Node) :
    ∀ (comp : Option String) (post : List Node) (brn : Node),
      Node.name brn = some "br" →
      (∀ n ∈ pre, Node.name n ≠ some "br") →
      (headerLoop (pre ++ brn :: post) comp).2 =
        some (pyStrip (String.join (post.map extract_text))) := by
  induction pre with
  | nil =>
    intro comp post brn hbr _
    simp only [List.nil_append, headerLoop]
    rw [if_neg (by rw [hbr]; simp), if_pos hbr]
  | cons n rest ih =>
    intro comp post brn hbr hpre
    have hn : Node.name n ≠ some "br" := (hpre n (List.mem_cons_self n rest))
    simp only [List.cons_append, headerLoop]
    by_cases hs : n.name = some "strong"
    · rw [if_pos hs]
      exact ih _ post brn hbr (fun m hm => hpre m (List.mem_cons_of_mem n hm))
    · rw [if_neg hs, if_neg hn]
      exact ih _ post brn hbr (fun m hm => hpre m (List.mem_cons_of_mem n hm))

theorem pieceHeaderFields_no_markup (hs : List Node)
    (h : ∀ n ∈ hs, Node.name n ≠ some "strong" ∧ Node.name n ≠ some "br") :
    pieceHeaderFields hs =
      (none, some (pyStrip (String.join (hs.map extract_text)))) := by
  unfold pieceHeaderFields
  rw [headerLoop_no_markup hs none h]
  simp

theorem pieceHeaderFields_after_br (pre post : List Node) (brn : Node)
    (hbr : Node.name brn = some "br")
    (hpre : ∀ n ∈ pre, Node.name n ≠ some "br") :
    (pieceHeaderFields (pre ++ brn :: post)).2 =
      some (pyStrip (String.join (post.map extract_text))) := by
  unfold pieceHeaderFields
  have h2 := headerLoop_first_br pre none post brn hbr hpre
  rcases hcd : headerLoop (pre ++ brn :: post) none with ⟨c, dsc⟩
  rw [hcd] at h2
  rw [if_neg]
  · exact h2
  · intro hcontra
    rw [hcontra.2] at h2
    exact Option.noConfusion h2

/-! Claim C6 (corrected). -/

/-- Counterexample to C6 as stated: a header with no strong node and no
break marker, consisting of a text node with a trailing space followed
by an em tag.  The produced description joins the per-node collapsed
texts with no separator, yielding `"Allegromolto"`, which differs from
the text of the entire header both verbatim (`nodesText`) and under the
whitespace-collapsed reading (`specHeaderFullText`). -/
theorem header_fallback_not_entire_text_cex :
    (pieceHeaderFields [Node.text "Allegro ", Node.elem "em" [Node.text "molto"]]).2 =
      some "Allegromolto" ∧
    specHeaderFullText [Node.text "Allegro ", Node.elem "em" [Node.text "molto"]] =
      "Allegro molto" ∧
    nodesText [Node.text "Allegro ", Node.elem "em" [Node.text "molto"]] =
      "Allegro molto" ∧
    ("Allegromolto" : String) ≠ "Allegro molto" := by
  refine ⟨rfl, rfl, rfl, by decide⟩

/-- C6 (amended): with no strong node and no break marker present, the
description is the no-separator concatenation of the whitespace-collapsed
texts of all header nodes, trimmed (for a single-text-node header this
is the header's whitespace-collapsed text), and no composer is set;
when a break marker is present, the description is the same
concatenation over exactly the nodes after the first break. -/
theorem header_fallback_joined_collapsed :
    (∀ hs : List Node,
      (∀ n ∈ hs, Node.name n ≠ some "strong" ∧ Node.name n ≠ some "br") →
      pieceHeaderFields hs =
        (none, some (pyStrip (String.join (hs.map extract_text))))) ∧
    (∀ (pre post : List Node) (brn : Node),
      Node.name brn = some "br" →
      (∀ n ∈ pre, Node.name n ≠ some "br") →
      (pieceHeaderFields (pre ++ brn :: post)).2 =
        some (pyStrip (String.join (post.map extract_text)))) :=
  ⟨fun hs h => pieceHeaderFields_no_markup hs h,
   fun pre post brn h1 h2 => pieceHeaderFields_after_br pre post brn h1 h2⟩

/-- Witness for the amended C6: an atypical single-text header is used
whole; a composer/break header takes only what follows the break. -/
theorem header_fallback_joined_collapsed_witness :
    pieceHeaderFields [Node.text " Symphony  No. 5 "] =
      (none, some "Symphony No. 5") ∧
    (pieceHeaderFields [Node.elem "strong" [Node.text "Brahms"], Node.elem "br" [],
        Node.text " Symphony No. 1 "]).2 = some "Symphony No. 1" := by
  constructor
  · exact header_fallback_joined_collapsed.1 [Node.text " Symphony  No. 5 "] (by decide)
  · exact header_fallback_joined_collapsed.2
      [Node.elem "strong" [Node.text "Brahms"]] [Node.text " Symphony No. 1 "]
      (Node.elem "br" []) rfl (by decide)

/-! Claim C2. -/

theorem extractFirstUrls_of_isSome (urls : List (String × Json))
    (h : ∀ kv ∈ urls, (candidateFirstUrl kv.2).isSome = true) :
    extractFirstUrls urls =
      some (urls.map (fun kv => (kv.1, (candidateFirstUrl kv.2).getD Json.null))) := by
  induction urls with
  | nil => rfl
  | cons kv rest ih =>
    have hkv := h kv (List.mem_cons_self kv rest)
    obtain ⟨u, hu⟩ := Option.isSome_iff_exists.mp hkv
    have ihr := ih (fun m hm => h m (List.mem_cons_of_mem kv hm))
    unfold extractFirstUrls at ihr ⊢
    rw [List.mapM_cons, hu, ihr]
    simp [hu]

theorem not_raises_of_2xx (st : Nat) (h : is2xx st = true) :
    raisesForStatus st = false := by
  unfold is2xx at h
  unfold raisesForStatus
  simp only [Bool.and_eq_true, decide_eq_true_eq] at h
  simp only [Bool.and_eq_false_iff, decide_eq_false_iff_not]
  left
  omega

/-- C2: for every successful stream-lookup response whose `urls`
mapping sends each sub-item id to a candidate list whose first element
carries a `url`, the resolver returns the map sending each sub-item id
to the first candidate's url, in document order. -/
theorem stream_resolver_first_candidate
    (st : Nat) (fields urls : List (String × Json)) (tr : Json)
    (h2xx : is2xx st = true)
    (hsucc : jlookup fields "success" = some tr) (htr : tr.truthy = true)
    (hurls : jlookup fields "urls" = some (.obj urls))
    (hcand : ∀ kv ∈ urls, (candidateFirstUrl kv.2).isSome = true) :
    get_streams (.response st (some (.obj fields))) =
      .ok (urls.map (fun kv => (kv.1, (candidateFirstUrl kv.2).getD Json.null))) := by
  unfold get_streams
  dsimp only
  rw [not_raises_of_2xx st h2xx]
  simp only [Bool.false_eq_true, if_false]
  rw [hsucc]
  simp only [htr]
  rw [if_neg (by simp [htr]), hurls]
  dsimp only
  rw [extractFirstUrls_of_isSome urls hcand]

/-- Witness for C2: the mock envelope
`{success: true, urls: {"42": [{url: "https://x/a"}, {url: "https://x/b"}]}}`
resolves to `{"42": "https://x/a"}`. -/
theorem stream_resolver_first_candidate_witness :
    get_streams (.response 200 (some demoEnvelope)) =
      .ok [("42", Json.str "https://x/a")] := by
  have h := stream_resolver_first_candidate 200
    [("success", .bool true),
     ("urls", .obj [("42", .arr [.obj [("url", .str "https://x/a")],
                                 .obj [("url", .str "https://x/b")]])])]
    [("42", .arr [.obj [("url", .str "https://x/a")],
                  .obj [("url", .str "https://x/b")]])]
    (.bool true) rfl rfl rfl rfl (by decide)
  exact h

/-! Claim C10. -/

/-- C10: a season-index response whose `items` length differs from its
`count` field does not abort the fetch: the result is `ok` for every
`count` value, the `items` list is returned unchanged, and the only
effect of a mismatch is the warning flag. -/
theorem season_count_mismatch_only_warns
    (st : Nat) (fields : List (String × Json)) (items : List Json) (c : Json)
    (h2xx : is2xx st = true)
    (hitems : jlookup fields "items" = some (.arr items))
    (hcount : jlookup fields "count" = some c) :
    get_seasons (.response st (some (.obj fields))) =
      .ok ⟨items, !(pyEqLen c items.length)⟩ := by
  unfold get_seasons
  dsimp only
  rw [not_raises_of_2xx st h2xx]
  simp only [Bool.false_eq_true, if_false]
  rw [hitems, hcount]

/-- Witness for C10: one item against a claimed count of five - the
fetch succeeds, the item list is intact, and the warning fired. -/
theorem season_count_mismatch_only_warns_witness :
    get_seasons (.response 200 (some (.obj
        [("items", .arr [.obj [("id", .str "2020"), ("label", .str "S")]]),
         ("count", .num 5)]))) =
      .ok ⟨[.obj [("id", .str "2020"), ("label", .str "S")]], true⟩ := by
  have h := season_count_mismatch_only_warns 200
    [("items", .arr [.obj [("id", .str "2020"), ("label", .str "S")]]),
     ("count", .num 5)]
    [.obj [("id", .str "2020"), ("label", .str "S")]] (.num 5) rfl rfl rfl
  exact h

/-! Claim C1. -/

theorem pieces_loop_mem (streams : List (String × Json)) :
    ∀ (ps : List PieceItem) (pcs : List Piece),
      pieces_loop streams ps = .ok pcs →
      ∀ pc ∈ pcs, ∃ p ∈ ps, process_piece streams p = .ok pc := by
  intro ps
  induction ps with
  | nil =>
    intro pcs h pc hpc
    injection h with h
    subst h
    cases hpc
  | cons p rest ih =>
    intro pcs h pc hpc
    unfold pieces_loop at h
    split at h
    · exact Except.noConfusion h
    · split at h
      · exact Except.noConfusion h
      · injection h with h
        subst h
        rcases List.mem_cons.mp hpc with heq | hmem
        · subst heq
          exact ⟨p, List.mem_cons_self p rest, by assumption⟩
        · obtain ⟨q, hq, hq2⟩ := ih _ (by assumption) pc hmem
          exact ⟨q, List.mem_cons_of_mem p hq, hq2⟩

theorem extract_metadata_ok (cid : String) (streams : List (String × Json))
    (page : ConcertPage) (rec : ConcertRec)
    (h : extract_metadata cid streams page = .ok rec) :
    ∃ dm mc pcs, concertDateMeta page.concertMetaTag = .ok dm ∧
      mainArtistConductor page.mainArtistTag = .ok mc ∧
      pieces_loop streams page.pieces = .ok pcs ∧
      rec = { concertId := cid
              concertTitle := page.titleTag.map
                (fun t => pyStrip (pyReplace '’' '\'' (nodeText t)))
              concertProgramme := page.programmeTag.map
                (fun t => pyStrip (pyReplace '’' '\'' (nodeText t)))
              concertProgrammeGuide := page.guideTag.map
                (fun t => pyStrip (pyReplace '’' '\'' (nodeText t)))
              concertDate := dm.1
              concertMeta := dm.2
              mainArtist := mc.1
              conductor := mc.2
              starArtists :=
                if page.starArtists.length != 0 then
                  some (page.starArtists.map extract_text)
                else none
              support := page.supportTag.map (fun t => pyStrip (nodeText t))
              pieces := pcs } := by
  unfold extract_metadata at h
  split at h
  · exact Except.noConfusion h
  · split at h
    · exact Except.noConfusion h
    · split at h
      · exact Except.noConfusion h
      · injection h with h
        exact ⟨_, _, _, by assumption, by assumption, by assumption, h.symm⟩

/-- C1: every Piece produced by the Concert Normalizer and every Film
record produced by the Film Normalizer has a present, non-null
streamUrl: the url looked up in the resolved stream map under the
item's own identifier, or the literal sentinel `"not-found"` when the
map has no entry for it. -/
theorem streamUrl_always_present :
    (∀ (cid : String) (streams : List (String × Json)) page rec,
      extract_metadata cid streams page = .ok rec →
      ∀ pc ∈ rec.pieces,
        pc.streamUrl = some (match jlookup streams pc.pieceId with
                             | some v => v
                             | none => Json.str "not-found")) ∧
    (∀ (env : FilmsEnv) (seen : List String) (fd : FilmListing) evs rec,
      handle_film env seen fd = (evs, .ok (some rec)) →
      ∃ streams, get_streams (env.streamsResp fd.film_id) = .ok streams ∧
        rec.streamUrl = some (match jlookup streams fd.film_id with
                              | some v => v
                              | none => Json.str "not-found")) := by
  constructor
  · intro cid streams page rec h pc hpc
    obtain ⟨dm, mc, pcs, _, _, hpcs, hrec⟩ := extract_metadata_ok cid streams page rec h
    subst hrec
    obtain ⟨p, _, hp⟩ := pieces_loop_mem streams page.pieces pcs hpcs pc hpc
    obtain ⟨pid, headers, _, _, hpc2⟩ := process_piece_ok streams p pc hp
    subst hpc2
    rfl
  · intro env seen fd evs rec h
    unfold handle_film at h
    split at h
    · rw [Prod.mk.injEq] at h
      exact absurd h.2 (by simp)
    · split at h
      · rw [Prod.mk.injEq] at h
        exact absurd h.2 (by simp)
      · split at h
        · rw [Prod.mk.injEq] at h
          exact absurd h.2 (by simp)
        · rw [Prod.mk.injEq] at h
          have h2 := h.2
          injection h2 with h2
          injection h2 with h2
          refine ⟨_, by assumption, ?_⟩
          rw [← h2]
          rfl

/-- Witness for C1: a concert piece whose id resolves, and a film whose
id resolves. -/
theorem streamUrl_always_present_witness :
    extract_metadata "c1" [("p1", Json.str "https://s/p1")] demoC1Page =
      .ok demoC1Rec ∧
    (∀ pc ∈ demoC1Rec.pieces,
      pc.streamUrl = some (match jlookup [("p1", Json.str "https://s/p1")] pc.pieceId with
                           | some v => v
                           | none => Json.str "not-found")) ∧
    handle_film envFilmDemo [] ⟨"f1", "A film"⟩ =
      ([.getFilmPage "f1", .getStreamsFor "f1"], .ok (some demoFilmRec)) ∧
    (∃ streams, get_streams (envFilmDemo.streamsResp "f1") = .ok streams ∧
      demoFilmRec.streamUrl = some (match jlookup streams "f1" with
                                    | some v => v
                                    | none => Json.str "not-found")) := by
  refine ⟨rfl, ?_, rfl, ?_⟩
  · exact streamUrl_always_present.1 "c1" [("p1", Json.str "https://s/p1")]
      demoC1Page demoC1Rec rfl
  · exact streamUrl_always_present.2 envFilmDemo [] ⟨"f1", "A film"⟩
      [.getFilmPage "f1", .getStreamsFor "f1"] demoFilmRec rfl

/-! Run-level infrastructure: which requests a run issues and which
records it emits. -/

theorem handle_concert_events (env : SeasonsEnv) (seen : List String)
    (cid : String) (evs : List Event) (r : Except RunErr (Option ConcertRec))
    (h : handle_concert env seen cid = (evs, r)) :
    ∀ e ∈ evs, seen.contains cid = false ∧
      (e = .getConcertPage cid ∨ e = .getStreamsFor cid) := by
  unfold handle_concert at h
  split at h
  · rw [Prod.mk.injEq] at h
    intro e he
    rw [← h.1] at he
    cases he
  · rename_i hc
    have hcf : seen.contains cid = false := by simpa using hc
    split at h
    · rw [Prod.mk.injEq] at h
      intro e he
      rw [← h.1] at he
      simp only [List.mem_singleton] at he
      exact ⟨hcf, Or.inl he⟩
    · split at h
      · rw [Prod.mk.injEq] at h
        intro e he
        rw [← h.1] at he
        rcases List.mem_cons.mp he with h1 | h2
        · exact ⟨hcf, Or.inl h1⟩
        · simp only [List.mem_singleton] at h2
          exact ⟨hcf, Or.inr h2⟩
      · split at h <;>
        · rw [Prod.mk.injEq] at h
          intro e he
          rw [← h.1] at he
          rcases List.mem_cons.mp he with h1 | h2
          · exact ⟨hcf, Or.inl h1⟩
          · simp only [List.mem_singleton] at h2
            exact ⟨hcf, Or.inr h2⟩

theorem concerts_loop_events (env : SeasonsEnv) (seen : List String) :
    ∀ (cids : List String) (evs : List Event) (r : Except RunErr (List ConcertRec)),
      concerts_loop env seen cids = (evs, r) →
      ∀ e ∈ evs, ∃ c, seen.contains c = false ∧
        (e = .getConcertPage c ∨ e = .getStreamsFor c) := by
  intro cids
  induction cids with
  | nil =>
    intro evs r h e he
    rw [concerts_loop, Prod.mk.injEq] at h
    rw [← h.1] at he
    cases he
  | cons cid rest ih =>
    intro evs r h e he
    unfold concerts_loop at h
    split at h
    · rename_i evs1 e1 heq
      rw [Prod.mk.injEq] at h
      rw [← h.1] at he
      exact ⟨cid, handle_concert_events env seen cid evs1 (.error e1) heq e he⟩
    · rename_i evs1 oc heq
      split at h
      · rename_i evs2 e2 heq2
        rw [Prod.mk.injEq] at h
        rw [← h.1] at he
        rcases List.mem_append.mp he with h1 | h2
        · exact ⟨cid, handle_concert_events env seen cid evs1 (.ok oc) heq e h1⟩
        · exact ih evs2 (.error e2) heq2 e h2
      · rename_i evs2 recs heq2
        rw [Prod.mk.injEq] at h
        rw [← h.1] at he
        rcases List.mem_append.mp he with h1 | h2
        · exact ⟨cid, handle_concert_events env seen cid evs1 (.ok oc) heq e h1⟩
        · exact ih evs2 (.ok recs) heq2 e h2

theorem handle_season_events (env : SeasonsEnv) (seen : List String)
    (sid label : String) (evs : List Event) (r : Except RunErr SeasonRec)
    (h : handle_season env seen sid label = (evs, r)) :
    ∀ e ∈ evs, e = .getSeasonPage sid ∨
      ∃ c, seen.contains c = false ∧
        (e = .getConcertPage c ∨ e = .getStreamsFor c) := by
  unfold handle_season at h
  split at h
  · rw [Prod.mk.injEq] at h
    intro e he
    rw [← h.1] at he
    simp only [List.mem_singleton] at he
    exact Or.inl he
  · rename_i raws heq
    split at h <;>
    · rename_i evs1 x heq1
      rw [Prod.mk.injEq] at h
      intro e he
      rw [← h.1] at he
      rcases List.mem_cons.mp he with h1 | h2
      · exact Or.inl h1
      · exact Or.inr (concerts_loop_events env seen _ evs1 _ heq1 e h2)

theorem seasons_loop_events (env : SeasonsEnv) (seen : List String) :
    ∀ (items : List Json) (evs : List Event) (r : Except RunErr (List SeasonRec)),
      seasons_loop env seen items = (evs, r) →
      ∀ e ∈ evs, (∃ sid, e = .getSeasonPage sid) ∨
        ∃ c, seen.contains c = false ∧
          (e = .getConcertPage c ∨ e = .getStreamsFor c) := by
  intro items
  induction items with
  | nil =>
    intro evs r h e he
    rw [seasons_loop, Prod.mk.injEq] at h
    rw [← h.1] at he
    cases he
  | cons j rest ih =>
    intro evs r h e he
    unfold seasons_loop at h
    split at h
    · rw [Prod.mk.injEq] at h
      rw [← h.1] at he
      cases he
    · rename_i sl heq0
      split at h
      · rename_i evs1 e1 heq
        rw [Prod.mk.injEq] at h
        rw [← h.1] at he
        rcases handle_season_events env seen sl.1 sl.2 evs1 (.error e1) heq e he with h1 | h2
        · exact Or.inl ⟨sl.1, h1⟩
        · exact Or.inr h2
      · rename_i evs1 s heq
        split at h <;>
        · rename_i evs2 x heq2
          rw [Prod.mk.injEq] at h
          rw [← h.1] at he
          rcases List.mem_append.mp he with h1 | h2
          · rcases handle_season_events env seen sl.1 sl.2 evs1 (.ok s) heq e h1 with ha | hb
            · exact Or.inl ⟨sl.1, ha⟩
            · exact Or.inr hb
          · exact ih evs2 _ heq2 e h2

theorem scrape_seasons_events (env : SeasonsEnv) (seen : List String)
    (evs : List Event) (r : Except RunErr (List SeasonRec))
    (h : scrape_seasons env seen = (evs, r)) :
    ∀ e ∈ evs, e = .getSeasons ∨ (∃ n, e = .writeOutput n) ∨
      (∃ sid, e = .getSeasonPage sid) ∨
      ∃ c, seen.contains c = false ∧
        (e = .getConcertPage c ∨ e = .getStreamsFor c) := by
  unfold scrape_seasons at h
  split at h
  · rw [Prod.mk.injEq] at h
    intro e he
    rw [← h.1] at he
    simp only [List.mem_singleton] at he
    exact Or.inl he
  · rename_i out heq0
    split at h
    · rename_i evs1 e1 heq
      rw [Prod.mk.injEq] at h
      intro e he
      rw [← h.1] at he
      rcases List.mem_cons.mp he with h1 | h2
      · exact Or.inl h1
      · rcases seasons_loop_events env seen out.items evs1 (.error e1) heq e h2 with ha | hb
        · exact Or.inr (Or.inr (Or.inl ha))
        · exact Or.inr (Or.inr (Or.inr hb))
    · rename_i evs1 batch heq
      rw [Prod.mk.injEq] at h
      intro e he
      rw [← h.1] at he
      rcases List.mem_cons.mp he with h1 | h2
      · exact Or.inl h1
      · rcases List.mem_append.mp h2 with ha | hb
        · rcases seasons_loop_events env seen out.items evs1 (.ok batch) heq e ha with hc | hd
          · exact Or.inr (Or.inr (Or.inl hc))
          · exact Or.inr (Or.inr (Or.inr hd))
        · simp only [List.mem_singleton] at hb
          exact Or.inr (Or.inl ⟨"seasons", hb⟩)

theorem handle_concert_ok_none (env : SeasonsEnv) (seen : List String)
    (cid : String) (evs : List Event)
    (h : handle_concert env seen cid = (evs, .ok none)) :
    seen.contains cid = true := by
  unfold handle_concert at h
  split at h
  · assumption
  · split at h
    · rw [Prod.mk.injEq] at h
      exact absurd h.2 (by simp)
    · split at h
      · rw [Prod.mk.injEq] at h
        exact absurd h.2 (by simp)
      · split at h <;>
        · rw [Prod.mk.injEq] at h
          exact absurd h.2 (by simp)

theorem handle_concert_ok_some (env : SeasonsEnv) (seen : List String)
    (cid : String) (evs : List Event) (rec : ConcertRec)
    (h : handle_concert env seen cid = (evs, .ok (some rec))) :
    seen.contains cid = false ∧ rec.concertId = cid := by
  unfold handle_concert at h
  split at h
  · rw [Prod.mk.injEq] at h
    exact absurd h.2 (by simp)
  · rename_i hc
    have hcf : seen.contains cid = false := by simpa using hc
    split at h
    · rw [Prod.mk.injEq] at h
      exact absurd h.2 (by simp)
    · rename_i page hpage
      split at h
      · rw [Prod.mk.injEq] at h
        exact absurd h.2 (by simp)
      · rename_i streams hstreams
        split at h
        · rw [Prod.mk.injEq] at h
          exact absurd h.2 (by simp)
        · rename_i rec0 hrec0
          rw [Prod.mk.injEq] at h
          have h2 := h.2
          injection h2 with h2
          injection h2 with h2
          obtain ⟨dm, mc, pcs, _, _, _, hr⟩ :=
            extract_metadata_ok cid streams page rec0 hrec0
          rw [← h2, hr]
          exact ⟨hcf, rfl⟩

theorem concerts_loop_ids (env : SeasonsEnv) (seen : List String) :
    ∀ (cids : List String) (evs : List Event) (recs : List ConcertRec),
      concerts_loop env seen cids = (evs, .ok recs) →
      recs.map (fun c => c.concertId) =
        cids.filter (fun c => !seen.contains c) := by
  intro cids
  induction cids with
  | nil =>
    intro evs recs h
    rw [concerts_loop, Prod.mk.injEq] at h
    have h2 := h.2
    injection h2 with h2
    rw [← h2]
    rfl
  | cons cid rest ih =>
    intro evs recs h
    unfold concerts_loop at h
    split at h
    · rw [Prod.mk.injEq] at h
      exact absurd h.2 (by simp)
    · rename_i evs1 oc heq
      split at h
      · rw [Prod.mk.injEq] at h
        exact absurd h.2 (by simp)
      · rename_i evs2 recs2 heq2
        rw [Prod.mk.injEq] at h
        have h2 := h.2
        injection h2 with h2
        rw [← h2]
        cases oc with
        | none =>
          have hc := handle_concert_ok_none env seen cid evs1 heq
          rw [List.filter_cons_of_neg (by rw [hc]; decide)]
          exact ih evs2 recs2 heq2
        | some c =>
          obtain ⟨hcf, hid⟩ := handle_concert_ok_some env seen cid evs1 c heq
          rw [List.filter_cons_of_pos (by rw [hcf]; decide), List.map_cons, hid,
            ih evs2 recs2 heq2]

theorem handle_season_ids (env : SeasonsEnv) (seen : List String)
    (sid label : String) (evs : List Event) (s : SeasonRec)
    (h : handle_season env seen sid label = (evs, .ok s)) :
    ∃ raws, env.seasonPageResp sid = .got raws ∧
      s.concerts.map (fun c => c.concertId) =
        (raws.map (pyDrop 8)).filter (fun c => !seen.contains c) := by
  unfold handle_season at h
  split at h
  · rw [Prod.mk.injEq] at h
    exact absurd h.2 (by simp)
  · rename_i raws hraws
    split at h
    · rw [Prod.mk.injEq] at h
      exact absurd h.2 (by simp)
    · rename_i evs1 recs heq
      rw [Prod.mk.injEq] at h
      have h2 := h.2
      injection h2 with h2
      refine ⟨raws, hraws, ?_⟩
      rw [← h2]
      exact concerts_loop_ids env seen _ evs1 recs heq

theorem seasons_loop_ids (env : SeasonsEnv) (seen : List String) :
    ∀ (items : List Json) (evs : List Event) (batch : List SeasonRec),
      seasons_loop env seen items = (evs, .ok batch) →
      batch.flatMap (fun s => s.concerts.map (fun c => c.concertId)) =
        (items.flatMap (catalogOfItem env)).filter (fun c => !seen.contains c) := by
  intro items
  induction items with
  | nil =>
    intro evs batch h
    rw [seasons_loop, Prod.mk.injEq] at h
    have h2 := h.2
    injection h2 with h2
    rw [← h2]
    rfl
  | cons j rest ih =>
    intro evs batch h
    unfold seasons_loop at h
    split at h
    · rw [Prod.mk.injEq] at h
      exact absurd h.2 (by simp)
    · rename_i sl hsl
      split at h
      · rw [Prod.mk.injEq] at h
        exact absurd h.2 (by simp)
      · rename_i evs1 s heq
        split at h
        · rw [Prod.mk.injEq] at h
          exact absurd h.2 (by simp)
        · rename_i evs2 batch2 heq2
          rw [Prod.mk.injEq] at h
          have h2 := h.2
          injection h2 with h2
          rw [← h2, List.flatMap_cons, List.flatMap_cons, List.filter_append]
          obtain ⟨raws, hraws, hids⟩ :=
            handle_season_ids env seen sl.1 sl.2 evs1 s heq
          rw [hids, ih evs2 batch2 heq2]
          have : catalogOfItem env j = raws.map (pyDrop 8) := by
            unfold catalogOfItem
            rw [hsl]
            dsimp only
            rw [hraws]
          rw [this]

theorem scrape_seasons_ids (env : SeasonsEnv) (seen : List String)
    (evs : List Event) (batch : List SeasonRec)
    (h : scrape_seasons env seen = (evs, .ok batch)) :
    batch.flatMap (fun s => s.concerts.map (fun c => c.concertId)) =
      (catalogConcertIds env).filter (fun c => !seen.contains c) := by
  unfold scrape_seasons at h
  split at h
  · rw [Prod.mk.injEq] at h
    exact absurd h.2 (by simp)
  · rename_i out hout
    split at h
    · rw [Prod.mk.injEq] at h
      exact absurd h.2 (by simp)
    · rename_i evs1 batch1 heq
      rw [Prod.mk.injEq] at h
      have h2 := h.2
      injection h2 with h2
      rw [← h2]
      unfold catalogConcertIds
      rw [hout]
      exact seasons_loop_ids env seen out.items evs1 batch1 heq

theorem handle_film_events (env : FilmsEnv) (seen : List String)
    (fd : FilmListing) (evs : List Event) (r : Except RunErr (Option FilmRec))
    (h : handle_film env seen fd = (evs, r)) :
    ∀ e ∈ evs, seen.contains fd.film_id = false ∧
      (e = .getFilmPage fd.film_id ∨ e = .getStreamsFor fd.film_id) := by
  unfold handle_film at h
  split at h
  · rw [Prod.mk.injEq] at h
    intro e he
    rw [← h.1] at he
    cases he
  · rename_i hc
    have hcf : seen.contains fd.film_id = false := by simpa using hc
    split at h
    · rw [Prod.mk.injEq] at h
      intro e he
      rw [← h.1] at he
      simp only [List.mem_singleton] at he
      exact ⟨hcf, Or.inl he⟩
    · split at h <;>
      · rw [Prod.mk.injEq] at h
        intro e he
        rw [← h.1] at he
        rcases List.mem_cons.mp he with h1 | h2
        · exact ⟨hcf, Or.inl h1⟩
        · simp only [List.mem_singleton] at h2
          exact ⟨hcf, Or.inr h2⟩

theorem films_loop_events (env : FilmsEnv) (seen : List String) :
    ∀ (fds : List FilmListing) (evs : List Event) (r : Except RunErr (List FilmRec)),
      films_loop env seen fds = (evs, r) →
      ∀ e ∈ evs, ∃ f, seen.contains f = false ∧
        (e = .getFilmPage f ∨ e = .getStreamsFor f) := by
  intro fds
  induction fds with
  | nil =>
    intro evs r h e he
    rw [films_loop, Prod.mk.injEq] at h
    rw [← h.1] at he
    cases he
  | cons fd rest ih =>
    intro evs r h e he
    unfold films_loop at h
    split at h
    · rename_i evs1 e1 heq
      rw [Prod.mk.injEq] at h
      rw [← h.1] at he
      exact ⟨fd.film_id, handle_film_events env seen fd evs1 (.error e1) heq e he⟩
    · rename_i evs1 orec heq
      split at h <;>
      · rename_i evs2 x heq2
        rw [Prod.mk.injEq] at h
        rw [← h.1] at he
        rcases List.mem_append.mp he with h1 | h2
        · exact ⟨fd.film_id, handle_film_events env seen fd evs1 (.ok orec) heq e h1⟩
        · exact ih evs2 _ heq2 e h2

theorem handle_film_ok_some (env : FilmsEnv) (seen : List String)
    (fd : FilmListing) (evs : List Event) (rec : FilmRec)
    (h : handle_film env seen fd = (evs, .ok (some rec))) :
    seen.contains fd.film_id = false ∧ rec.film_id = fd.film_id := by
  unfold handle_film at h
  split at h
  · rw [Prod.mk.injEq] at h
    exact absurd h.2 (by simp)
  · rename_i hc
    have hcf : seen.contains fd.film_id = false := by simpa using hc
    split at h
    · rw [Prod.mk.injEq] at h
      exact absurd h.2 (by simp)
    · split at h
      · rw [Prod.mk.injEq] at h
        exact absurd h.2 (by simp)
      · rw [Prod.mk.injEq] at h
        have h2 := h.2
        injection h2 with h2
        injection h2 with h2
        rw [← h2]
        exact ⟨hcf, rfl⟩

theorem handle_film_ok_none (env : FilmsEnv) (seen : List String)
    (fd : FilmListing) (evs : List Event)
    (h : handle_film env seen fd = (evs, .ok none)) :
    seen.contains fd.film_id = true := by
  unfold handle_film at h
  split at h
  · assumption
  · split at h
    · rw [Prod.mk.injEq] at h
      exact absurd h.2 (by simp)
    · split at h <;>
      · rw [Prod.mk.injEq] at h
        exact absurd h.2 (by simp)

theorem films_loop_ids (env : FilmsEnv) (seen : List String) :
    ∀ (fds : List FilmListing) (evs : List Event) (recs : List FilmRec),
      films_loop env seen fds = (evs, .ok recs) →
      recs.map (fun r => r.film_id) =
        (fds.map (fun f => f.film_id)).filter (fun c => !seen.contains c) := by
  intro fds
  induction fds with
  | nil =>
    intro evs recs h
    rw [films_loop, Prod.mk.injEq] at h
    have h2 := h.2
    injection h2 with h2
    rw [← h2]
    rfl
  | cons fd rest ih =>
    intro evs recs h
    unfold films_loop at h
    split at h
    · rw [Prod.mk.injEq] at h
      exact absurd h.2 (by simp)
    · rename_i evs1 orec heq
      split at h
      · rw [Prod.mk.injEq] at h
        exact absurd h.2 (by simp)
      · rename_i evs2 recs2 heq2
        rw [Prod.mk.injEq] at h
        have h2 := h.2
        injection h2 with h2
        rw [← h2, List.map_cons]
        cases orec with
        | none =>
          have hc := handle_film_ok_none env seen fd evs1 heq
          rw [List.filter_cons_of_neg (by rw [hc]; decide)]
          exact ih evs2 recs2 heq2
        | some rec =>
          obtain ⟨hcf, hid⟩ := handle_film_ok_some env seen fd evs1 rec heq
          rw [List.filter_cons_of_pos (by rw [hcf]; decide), List.map_cons, hid,
            ih evs2 recs2 heq2]

theorem scrape_films_ids (env : FilmsEnv) (seen : List String)
    (evs : List Event) (recs : List FilmRec)
    (h : scrape_films env seen = (evs, .ok recs)) :
    recs.map (fun r => r.film_id) =
      (catalogFilmIds env).filter (fun c => !seen.contains c) := by
  unfold scrape_films at h
  split at h
  · rw [Prod.mk.injEq] at h
    exact absurd h.2 (by simp)
  · rename_i items hitems
    split at h
    · rw [Prod.mk.injEq] at h
      exact absurd h.2 (by simp)
    · rename_i evs1 recs1 heq
      rw [Prod.mk.injEq] at h
      have h2 := h.2
      injection h2 with h2
      rw [← h2]
      unfold catalogFilmIds
      rw [hitems]
      exact films_loop_ids env seen _ evs1 recs1 heq

/-! Claim C3. -/

/-- C3: a concert id in the loaded seen-set is never fetched - neither
its page nor its streams - and contributes no Concert record: the
membership test precedes any network request for the item. -/
theorem seen_concert_skipped (env : SeasonsEnv) (seen : List String)
    (cid : String) (evs : List Event) (res : Except RunErr (List SeasonRec))
    (hseen : seen.contains cid = true)
    (hrun : scrape_seasons env seen = (evs, res)) :
    Event.getConcertPage cid ∉ evs ∧ Event.getStreamsFor cid ∉ evs ∧
    ∀ batch, res = .ok batch →
      ∀ s ∈ batch, ∀ c ∈ s.concerts, c.concertId ≠ cid := by
  have hev := scrape_seasons_events env seen evs res hrun
  refine ⟨?_, ?_, ?_⟩
  · intro hmem
    rcases hev _ hmem with h | ⟨n, h⟩ | ⟨sid, h⟩ | ⟨c, hc, h | h⟩
    · exact Event.noConfusion h
    · exact Event.noConfusion h
    · exact Event.noConfusion h
    · injection h with h
      rw [← h, hseen] at hc
      exact Bool.noConfusion hc
    · exact Event.noConfusion h
  · intro hmem
    rcases hev _ hmem with h | ⟨n, h⟩ | ⟨sid, h⟩ | ⟨c, hc, h | h⟩
    · exact Event.noConfusion h
    · exact Event.noConfusion h
    · exact Event.noConfusion h
    · exact Event.noConfusion h
    · injection h with h
      rw [← h, hseen] at hc
      exact Bool.noConfusion hc
  · intro batch hbatch s hs c hcmem hcid
    rw [hbatch] at hrun
    have hids := scrape_seasons_ids env seen evs batch hrun
    have hmem : c.concertId ∈
        batch.flatMap (fun s => s.concerts.map (fun c => c.concertId)) :=
      List.mem_flatMap.mpr ⟨s, hs, List.mem_map_of_mem _ hcmem⟩
    rw [hids] at hmem
    have := List.of_mem_filter hmem
    rw [hcid, hseen] at this
    exact Bool.noConfusion this

/-- Witness for C3: a catalog listing concert `"991231"` while the
seen-set already contains it - the run fetches the index and season
page only, writes an empty season, and never touches the concert. -/
theorem seen_concert_skipped_witness :
    scrape_seasons envSkipDemo ["991231"] =
      ([.getSeasons, .getSeasonPage "s1", .writeOutput "seasons"],
        .ok [⟨"s1", "Season one", []⟩]) ∧
    (Event.getConcertPage "991231" ∉
        ([.getSeasons, .getSeasonPage "s1", .writeOutput "seasons"] : List Event) ∧
      Event.getStreamsFor "991231" ∉
        ([.getSeasons, .getSeasonPage "s1", .writeOutput "seasons"] : List Event) ∧
      ∀ batch, (.ok [⟨"s1", "Season one", []⟩] :
            Except RunErr (List SeasonRec)) = .ok batch →
        ∀ s ∈ batch, ∀ c ∈ s.concerts, c.concertId ≠ "991231") := by
  refine ⟨rfl, ?_⟩
  exact seen_concert_skipped envSkipDemo ["991231"] "991231"
    [.getSeasons, .getSeasonPage "s1", .writeOutput "seasons"]
    (.ok [⟨"s1", "Season one", []⟩]) (by decide) rfl

/-! Claim C9 (corrected). -/

/-- Counterexample to C9 as stated: with an empty seen-set and a
catalog whose single season page lists concert id `"7"` twice, the run
emits two Concert records for `"7"` - the seen-set is never updated
mid-run, so it cannot deduplicate intra-run catalog repetitions. -/
theorem intra_run_duplicate_cex :
    catalogConcertIds envDupCatalog = ["7", "7"] ∧
    (concertIdsOfRun (scrape_seasons envDupCatalog [])).count "7" = 2 := ⟨rfl, rfl⟩

/-- C9 (amended): each Concert/Film identifier appears in the output
batch exactly once per catalog occurrence that is not in the seen-set;
in particular, when the catalog lists every identifier at most once the
output contains it at most once.  The seen-set (a run parameter, never
mutated) only suppresses identifiers from prior runs. -/
theorem output_ids_are_filtered_catalog_ids :
    (∀ (env : SeasonsEnv) (seen : List String) evs batch,
      scrape_seasons env seen = (evs, .ok batch) →
      batch.flatMap (fun s => s.concerts.map (fun c => c.concertId)) =
        (catalogConcertIds env).filter (fun c => !seen.contains c) ∧
      ((catalogConcertIds env).Nodup →
        (batch.flatMap (fun s => s.concerts.map (fun c => c.concertId))).Nodup)) ∧
    (∀ (env : FilmsEnv) (seen : List String) evs recs,
      scrape_films env seen = (evs, .ok recs) →
      recs.map (fun r => r.film_id) =
        (catalogFilmIds env).filter (fun c => !seen.contains c) ∧
      ((catalogFilmIds env).Nodup → (recs.map (fun r => r.film_id)).Nodup)) := by
  constructor
  · intro env seen evs batch h
    have hid := scrape_seasons_ids env seen evs batch h
    refine ⟨hid, fun hnd => ?_⟩
    rw [hid]
    exact hnd.filter _
  · intro env seen evs recs h
    have hid := scrape_films_ids env seen evs recs h
    refine ⟨hid, fun hnd => ?_⟩
    rw [hid]
    exact hnd.filter _

/-- Witness for the amended C9: the duplicated catalog with the id
already seen yields an empty filter result, and a films run emits one
record per unseen catalog occurrence. -/
theorem output_ids_are_filtered_catalog_ids_witness :
    scrape_seasons envDupCatalog ["7"] =
      ([.getSeasons, .getSeasonPage "s1", .writeOutput "seasons"],
        .ok [⟨"s1", "Season one", []⟩]) ∧
    ([(⟨"s1", "Season one", []⟩ : SeasonRec)].flatMap
        (fun s => s.concerts.map (fun c => c.concertId)) =
      (catalogConcertIds envDupCatalog).filter
        (fun c => !(["7"] : List String).contains c)) ∧
    scrape_films envFilmDemo [] =
      ([.getFilms, .getFilmPage "f1", .getStreamsFor "f1", .writeOutput "films"],
        .ok [demoFilmRec]) ∧
    ([demoFilmRec].map (fun r => r.film_id) =
      (catalogFilmIds envFilmDemo).filter
        (fun c => !([] : List String).contains c)) := by
  refine ⟨rfl, ?_, rfl, ?_⟩
  · exact (output_ids_are_filtered_catalog_ids.1 envDupCatalog ["7"]
      [.getSeasons, .getSeasonPage "s1", .writeOutput "seasons"]
      [⟨"s1", "Season one", []⟩] rfl).1
  · exact (output_ids_are_filtered_catalog_ids.2 envFilmDemo []
      [.getFilms, .getFilmPage "f1", .getStreamsFor "f1", .writeOutput "films"]
      [demoFilmRec] rfl).1

/-! Claim C8 (corrected). -/

/-- Counterexample to C8 as stated: a non-2xx response (status 300)
carrying a success envelope is not treated as a failure - the lookup
returns normally and the run continues, because `raise_for_status`
only raises for 4xx/5xx. -/
theorem non2xx_without_termination_cex :
    is2xx 300 = false ∧
    get_streams (FetchResult.response 300 (some demoEnvelope)) =
      .ok [("42", Json.str "https://x/a")] := ⟨rfl, rfl⟩

/-- C8 (amended): a transport error, a 4xx/5xx status, a non-JSON
body, or a success=false envelope each abort the stream lookup with a
nonzero exit status, and an aborted run never reaches the output write
- no partial batch is written. -/
theorem stream_failures_fail_fast :
    (∀ resp, streamFailure resp →
      ∃ e, get_streams resp = .error e ∧ RunErr.exitCode e ≠ 0) ∧
    (∀ (env : SeasonsEnv) (seen : List String) evs e,
      scrape_seasons env seen = (evs, .error e) →
      ∀ n, Event.writeOutput n ∉ evs) ∧
    (∀ (env : FilmsEnv) (seen : List String) evs e,
      scrape_films env seen = (evs, .error e) →
      ∀ n, Event.writeOutput n ∉ evs) := by
  refine ⟨?_, ?_, ?_⟩
  · intro resp hf
    rcases hf with h | ⟨st, body, h, hst⟩ | ⟨st, h⟩ | ⟨st, fields, s, h, hsucc, htr⟩
    · subst h
      exact ⟨.exited, rfl, by decide⟩
    · subst h
      refine ⟨.exited, ?_, by decide⟩
      unfold get_streams
      dsimp only
      rw [hst]
      rfl
    · subst h
      by_cases hst : raisesForStatus st = true
      · refine ⟨.exited, ?_, by decide⟩
        unfold get_streams
        dsimp only
        rw [hst]
        rfl
      · refine ⟨.exited, ?_, by decide⟩
        unfold get_streams
        dsimp only
        simp only [Bool.not_eq_true] at hst
        rw [hst]
        rfl
    · subst h
      by_cases hst : raisesForStatus st = true
      · refine ⟨.exited, ?_, by decide⟩
        unfold get_streams
        dsimp only
        rw [hst]
        rfl
      · cases hmsg : jlookup fields "message" with
        | some m =>
          refine ⟨.exited, ?_, by decide⟩
          unfold get_streams
          dsimp only
          simp only [Bool.not_eq_true] at hst
          simp only [hst, Bool.false_eq_true, if_false, hsucc, htr, hmsg]
          rw [if_pos trivial]
        | none =>
          refine ⟨.crashed "KeyError: message", ?_, by decide⟩
          unfold get_streams
          dsimp only
          simp only [Bool.not_eq_true] at hst
          simp only [hst, Bool.false_eq_true, if_false, hsucc, htr, hmsg]
          rw [if_pos trivial]
  · intro env seen evs e h n hmem
    unfold scrape_seasons at h
    split at h
    · rw [Prod.mk.injEq] at h
      rw [← h.1] at hmem
      simp only [List.mem_singleton] at hmem
      exact Event.noConfusion hmem
    · rename_i out hout
      split at h
      · rename_i evs1 e1 heq
        rw [Prod.mk.injEq] at h
        rw [← h.1] at hmem
        rcases List.mem_cons.mp hmem with h1 | h2
        · exact Event.noConfusion h1
        · rcases seasons_loop_events env seen out.items evs1 (.error e1) heq _ h2 with
            ⟨sid, hs⟩ | ⟨c, _, hc | hc⟩
          · exact Event.noConfusion hs
          · exact Event.noConfusion hc
          · exact Event.noConfusion hc
      · rw [Prod.mk.injEq] at h
        exact absurd h.2 (by simp)
  · intro env seen evs e h n hmem
    unfold scrape_films at h
    split at h
    · rw [Prod.mk.injEq] at h
      rw [← h.1] at hmem
      simp only [List.mem_singleton] at hmem
      exact Event.noConfusion hmem
    · rename_i items hitems
      split at h
      · rename_i evs1 e1 heq
        rw [Prod.mk.injEq] at h
        rw [← h.1] at hmem
        rcases List.mem_cons.mp hmem with h1 | h2
        · exact Event.noConfusion h1
        · rcases films_loop_events env seen _ evs1 (.error e1) heq _ h2 with
            ⟨f, _, hc | hc⟩
          · exact Event.noConfusion hc
          · exact Event.noConfusion hc
      · rw [Prod.mk.injEq] at h
        exact absurd h.2 (by simp)

/-- Witness for the amended C8: a transport error on the very first
fetch aborts the run before anything is written. -/
theorem stream_failures_fail_fast_witness :
    streamFailure FetchResult.transportError ∧
    (∃ e, get_streams FetchResult.transportError = .error e ∧
      RunErr.exitCode e ≠ 0) ∧
    scrape_seasons envFailDemo [] = ([.getSeasons], .error .exited) ∧
    (∀ n, Event.writeOutput n ∉ ([.getSeasons] : List Event)) := by
  refine ⟨Or.inl rfl, stream_failures_fail_fast.1 _ (Or.inl rfl), rfl, ?_⟩
  exact stream_failures_fail_fast.2.1 envFailDemo [] [.getSeasons] .exited rfl

/-! Claim C7 (corrected). -/

/-- Counterexample to C7 as stated: the Film Normalizer stores the
subtitle verbatim (only end-stripped) - its internal double space
survives and its U+2019 is not replaced, so the uniform normalization
predicate fails on this output field. -/
theorem film_subtitle_not_uniformly_normalized_cex :
    filmSubtitleOf (handle_film envFilmDemo [] ⟨"f1", "A film"⟩) =
      some "Mozart’s  Requiem" ∧
    ¬ specUniformNormalized "Mozart’s  Requiem" := by
  constructor
  · rfl
  · intro h
    exact absurd h.2.1 (by decide)

theorem concertDateMeta_date (d : String) (rest : List Node)
    (dm : String × Option String)
    (h : concertDateMeta (some (Node.text d :: rest)) = .ok dm) :
    dm.1 = pyStrip (pyReplace '–' '-' d) := by
  unfold concertDateMeta at h
  split at h
  · rename_i heq
    exact Option.noConfusion heq
  · rename_i heq
    injection heq with heq
    exact List.noConfusion heq
  · rename_i heq
    injection heq with heq
    injection heq with heq1 heq2
    exact Node.noConfusion heq1
  · rename_i d2 rest2 heq
    injection heq with heq
    injection heq with heq1 heq2
    injection heq1 with heq1
    subst heq1
    subst heq2
    split at h
    · injection h with h
      rw [← h]
    · exact Except.noConfusion h
    · injection h with h
      rw [← h]

/-- C7 (amended): normalization is per-field, not uniform.  Fields that
go through the shared text extractor (star artists, and likewise the
conductor and concert meta) are whitespace-collapsed and trimmed; the
concert title (like programme and guide) only has U+2019 replaced and
the ends stripped - internal whitespace survives; the concert date only
has U+2013 replaced and the ends stripped; film text fields are only
end-stripped. -/
theorem normalization_is_per_field :
    (∀ (cid : String) (streams : List (String × Json)) page rec,
      extract_metadata cid streams page = .ok rec →
      (∀ t, page.titleTag = some t →
        rec.concertTitle = some (pyStrip (pyReplace '’' '\'' (nodeText t)))) ∧
      (rec.starArtists =
        if page.starArtists.length != 0 then
          some (page.starArtists.map extract_text)
        else none) ∧
      (∀ d rest, page.concertMetaTag = some (Node.text d :: rest) →
        rec.concertDate = pyStrip (pyReplace '–' '-' d))) ∧
    (∀ (fd : FilmListing) (streams : List (String × Json)) page,
      (build_film_record fd streams page).subtitle =
        page.subTitleTag.map (fun t => pyStrip (nodeText t))) ∧
    (∀ n, extract_text n = " ".intercalate (pySplit (nodeText n))) := by
  refine ⟨?_, fun fd streams page => rfl, fun n => rfl⟩
  intro cid streams page rec h
  obtain ⟨dm, mc, pcs, hdm, hmc, hpcs, hrec⟩ :=
    extract_metadata_ok cid streams page rec h
  subst hrec
  refine ⟨?_, rfl, ?_⟩
  · intro t ht
    rw [ht]
    rfl
  · intro d rest hmeta
    rw [hmeta] at hdm
    exact concertDateMeta_date d rest dm hdm

/-- Witness for the amended C7: `pageStar`'s title keeps its doubled
space while its star artist is collapsed and its date is de-dashed;
`demoFilmPage`'s subtitle is only stripped. -/
theorem normalization_is_per_field_witness :
    extract_metadata "c7" [] pageStar = .ok recStar ∧
    recStar.concertTitle =
      some (pyStrip (pyReplace '’' '\'' (nodeText (Node.text "It’s  big")))) ∧
    recStar.concertDate = pyStrip (pyReplace '–' '-' " 12–13 Mar ") ∧
    (build_film_record ⟨"f1", "T"⟩ [] demoFilmPage).subtitle =
      demoFilmPage.subTitleTag.map (fun t => pyStrip (nodeText t)) := by
  refine ⟨rfl, ?_, ?_, ?_⟩
  · exact (normalization_is_per_field.1 "c7" [] pageStar recStar rfl).1
      (Node.text "It’s  big") rfl
  · exact (normalization_is_per_field.1 "c7" [] pageStar recStar rfl).2.2
      " 12–13 Mar " [] rfl
  · exact normalization_is_per_field.2.1 ⟨"f1", "T"⟩ [] demoFilmPage

end Philly
